import Mathlib

/-!
# Sample-chunk cache of the Deluge firmware: `Cluster` and `SampleHolder`

A shallow embedding of `src/src/Cluster.cpp` and `src/src/SampleHolder.cpp`.

* Pointers are natural numbers, `0` being `NULL`.
* The byte buffer `data` of a chunk is a function from byte offsets (relative to
  `&data[0]`) to byte values; a `char*` into the buffer is its offset.
* `int` / `uint32_t` arithmetic is done in `Int` with an explicit wrap where
  the source stores into a 32-bit variable.
* Calls to `AudioEngine::routine()` are counted, and the offsets at which a
  sample is converted are logged in order, so that they can be reasoned about.
-/

namespace Deluge

/-- A pointer; `0` is `NULL`. -/
abbrev Ptr := Nat

/-- The null pointer. -/
def NULL : Ptr := 0

/-- Storing an integer into a `uint32_t`. -/
def wrapU32 (x : Int) : Int := x % 4294967296

/-- Storing an integer into an `int` (32 bits, wrapping). -/
def wrapI32 (x : Int) : Int := (x + 2147483648) % 4294967296 - 2147483648

/-- The C expression `x & m` for a 32-bit `x` and a non-negative mask `m`. -/
def andMask (x : Int) (m : Nat) : Int := (((wrapU32 x).toNat &&& m : Nat) : Int)

/-- Modelled from the spec: the on-disk format tag of a sample, one of native,
odd-width-byte-swapped and other-non-native (`definitions.h`, which gives
`RAW_DATA_ENDIANNESS_WRONG_24` and its siblings their values, is not among the
sources). `native` is the zero value tested by `if (sample->rawDataFormat)`. -/
inductive RawDataFormat where
  | native
  | endiannessWrong24
  | otherNonNative
deriving DecidableEq, Repr

/-- The `type` field of a chunk (`LOADED_SAMPLE_CHUNK_*`); `other` stands for
every value that the `switch` statements send to their `default`. -/
inductive ClusterType where
  | sample
  | sampleCache
  | percCacheForwards
  | percCacheReversed
  | other
deriving DecidableEq, Repr

/-- The global configuration of the eviction pool (`sampleManager`). -/
structure SampleManager where
  clusterSizeMagnitude : Nat
  clusterSize : Nat

/-- The pool invariant: the chunk size is two to the power of its magnitude. -/
def SampleManager.WellFormed (sm : SampleManager) : Prop :=
  sm.clusterSize = 2 ^ sm.clusterSizeMagnitude

instance (sm : SampleManager) : Decidable sm.WellFormed := by
  unfold SampleManager.WellFormed; infer_instance

/-- The fields of a `Sample` that the chunk and holder code reads or writes.
`clusters i` is the `loadedSampleChunk` pointer of element `i` of the chunk table of
the sample; `convertOneData` is the per-sample conversion of the owner, acting on
the four bytes its `int32_t*` argument points at. -/
structure Sample where
  audioDataStartPosBytes : Nat
  audioDataLengthBytes : Nat
  rawDataFormat : RawDataFormat
  numReasons : Int
  lengthInSamples : Nat
  numChannels : Nat
  byteDepth : Nat
  clusters : Int → Ptr
  convertOneData : Nat × Nat × Nat × Nat → Nat × Nat × Nat × Nat

/-- Modelled from the spec: `Sample::getFirstChunkIndexWithAudioData` (its body
is in `Sample.cpp`, not among the sources), the index of the chunk that holds
the first byte of audio data. -/
def Sample.getFirstChunkIndexWithAudioData (sm : SampleManager) (s : Sample) : Int :=
  (s.audioDataStartPosBytes : Int) >>> sm.clusterSizeMagnitude

/-- Modelled from the spec: `Sample::getFirstChunkIndexWithNoAudioData` (its
body is in `Sample.cpp`, not among the sources), one past the index of the
chunk that holds the last byte of audio data. -/
def Sample.getFirstChunkIndexWithNoAudioData (sm : SampleManager) (s : Sample) : Int :=
  (((s.audioDataStartPosBytes : Int) + s.audioDataLengthBytes - 1) >>> sm.clusterSizeMagnitude) + 1

/-- A chunk (`Cluster`). `dataAddr` is the machine address of `data[0]`. -/
structure Cluster where
  type : ClusterType
  sample : Ptr
  sampleCache : Ptr
  chunkIndex : Int
  extraBytesAtStartConverted : Bool
  extraBytesAtEndConverted : Bool
  loaded : Bool
  numReasonsHeldBySampleRecorder : Int
  numReasonsToBeLoaded : Int
  firstThreeBytesPreDataConversion : Nat × Nat × Nat
  dataAddr : Nat
  data : Int → Nat

/-- The state of a conversion loop: the buffer, the moving pointer `pos`, the
number of calls made to `AudioEngine::routine()`, and the offsets converted so
far, oldest first. -/
structure ConvState where
  data : Int → Nat
  pos : Int
  routineCalls : Nat
  converted : List Int

/-- The three statements `temp = pos[0]; pos[0] = pos[2]; pos[2] = temp;`. -/
def swapGroup (data : Int → Nat) (pos : Int) : Int → Nat :=
  let temp := data pos
  let data1 := Function.update data pos (data (pos + 2))
  Function.update data1 (pos + 2) temp

/-- The inner loop `while (pos < endPosNow) { swap; pos += 3; }`. -/
def swapLoop (endPosNow : Int) (s : ConvState) : ConvState :=
  if s.pos < endPosNow then
    swapLoop endPosNow
      { s with data := swapGroup s.data s.pos, pos := s.pos + 3,
               converted := s.converted ++ [s.pos] }
  else s
termination_by (endPosNow - s.pos).toNat
decreasing_by simp_wf; omega

/-- The end of the next quantum: `endPosNow = pos + 1024`, clipped to `endPos`. -/
def quantumEnd (endPos pos : Int) : Int :=
  if pos + 1024 > endPos then endPos else pos + 1024

/-- The outer loop `while (true)` of the 24-bit conversion: one quantum of
swaps, then either `break` or a call to `AudioEngine::routine()`. -/
def swapQuanta (endPos : Int) (s : ConvState) : ConvState :=
  if _h : (swapLoop (quantumEnd endPos s.pos) s).pos ≥ endPos then
    swapLoop (quantumEnd endPos s.pos) s
  else
    swapQuanta endPos
      { swapLoop (quantumEnd endPos s.pos) s with
        routineCalls := (swapLoop (quantumEnd endPos s.pos) s).routineCalls + 1 }
termination_by (endPos - s.pos).toNat
decreasing_by
  have hge : ∀ t : ConvState, quantumEnd endPos s.pos ≤ (swapLoop (quantumEnd endPos s.pos) t).pos := by
    intro t
    induction t using swapLoop.induct (quantumEnd endPos s.pos) with
    | case1 t h ih => rw [swapLoop, if_pos h]; exact ih
    | case2 t h => rw [swapLoop, if_neg h]; omega
  have h1 := hge s
  have h2 : endPos < s.pos + 1024 → quantumEnd endPos s.pos = endPos := by
    intro h; unfold quantumEnd; rw [if_pos (by omega)]
  have h3 : ¬ endPos < s.pos + 1024 → quantumEnd endPos s.pos = s.pos + 1024 := by
    intro h; unfold quantumEnd; rw [if_neg (by omega)]
  simp_wf
  by_cases h : endPos < s.pos + 1024
  · rw [h2 h] at h1 _h; omega
  · rw [h3 h] at h1 _h ⊢; omega

/-- The loop test `!((uint32_t)pos & 0b1111111100)` at buffer offset `pos`. -/
def atRoutineAddress (dataAddr : Nat) (pos : Int) : Bool :=
  andMask ((dataAddr : Int) + pos) 1020 == 0

/-- The four bytes at `pos` replaced by their image under `conv`. -/
def convertWord (conv : Nat × Nat × Nat × Nat → Nat × Nat × Nat × Nat)
    (data : Int → Nat) (pos : Int) : Int → Nat :=
  let w := conv (data pos, data (pos + 1), data (pos + 2), data (pos + 3))
  Function.update (Function.update (Function.update (Function.update data
    pos w.1) (pos + 1) w.2.1) (pos + 2) w.2.2.1) (pos + 3) w.2.2.2

/-- The loop `for (; pos < endPos; pos++)` over `int32_t*` of the other
non-native formats. -/
def wordLoop (conv : Nat × Nat × Nat × Nat → Nat × Nat × Nat × Nat) (dataAddr : Nat)
    (endPos : Int) (s : ConvState) : ConvState :=
  if s.pos < endPos then
    wordLoop conv dataAddr endPos
      { data := convertWord conv s.data s.pos
        pos := s.pos + 4
        routineCalls := if atRoutineAddress dataAddr s.pos then s.routineCalls + 1
                        else s.routineCalls
        converted := s.converted ++ [s.pos] }
  else s
termination_by (endPos - s.pos).toNat
decreasing_by simp_wf; omega

/-- What a call of `convertDataIfNecessary` leaves behind: the chunk, the
number of calls made to `AudioEngine::routine()` and the offsets converted. -/
structure ConvResult where
  cluster : Cluster
  routineCalls : Nat
  converted : List Int

/-- The start pointer of the 24-bit conversion, as an offset into `data`. -/
def startPos24 (sm : SampleManager) (sample : Sample) (chunkIndex startPos startChunk : Int) :
    Int :=
  if chunkIndex = startChunk then
    andMask startPos (sm.clusterSize - 1)
  else
    let bytesBeforeStartOfChunk : Int :=
      wrapU32 (chunkIndex * sm.clusterSize - sample.audioDataStartPosBytes)
    let bytesThatWillBeEatingIntoAnother3Byte : Int := bytesBeforeStartOfChunk % 3
    let bytesThatWillBeEatingIntoAnother3Byte : Int :=
      if bytesThatWillBeEatingIntoAnother3Byte = 0 then 3
      else bytesThatWillBeEatingIntoAnother3Byte
    3 - bytesThatWillBeEatingIntoAnother3Byte

/-- The end pointer of a conversion, as an offset into `data`; `slack` is 2 in
the 24-bit loop and 3 in the word loop. -/
def endPosOf (sm : SampleManager) (sample : Sample) (chunkIndex : Int) (slack : Int) : Int :=
  if chunkIndex = sample.getFirstChunkIndexWithNoAudioData sm - 1 then
    let endAtBytePos : Int :=
      wrapU32 ((sample.audioDataStartPosBytes : Int) + sample.audioDataLengthBytes)
    let endAtPosWithinChunk : Int := andMask endAtBytePos (sm.clusterSize - 1)
    endAtPosWithinChunk
  else
    (sm.clusterSize : Int) - slack

/-- The start pointer of the word conversion, as an offset into `data`. -/
def startPosWord (sm : SampleManager) (chunkIndex startPos startChunk : Int) : Int :=
  if chunkIndex = startChunk then andMask startPos (sm.clusterSize - 1)
  else andMask startPos 3

/-- The method `Cluster::convertDataIfNecessary`, with `sample` the object that the
`sample` pointer of the chunk refers to. -/
def Cluster.convertDataIfNecessary (sm : SampleManager) (sample : Sample) (c : Cluster) :
    ConvResult :=
  if sample.audioDataStartPosBytes = 0 then ⟨c, 0, []⟩
  else if sample.rawDataFormat ≠ RawDataFormat.native then
    let c1 := { c with firstThreeBytesPreDataConversion := (c.data 0, c.data 1, c.data 2) }
    let startPos : Int := wrapI32 sample.audioDataStartPosBytes
    let startChunk : Int := startPos >>> sm.clusterSizeMagnitude
    if c.chunkIndex < startChunk then ⟨c1, 0, []⟩
    else if sample.rawDataFormat = RawDataFormat.endiannessWrong24 then
      let pos := startPos24 sm sample c.chunkIndex startPos startChunk
      let endPos := endPosOf sm sample c.chunkIndex 2
      let s := swapQuanta endPos ⟨c1.data, pos, 0, []⟩
      ⟨{ c1 with data := s.data }, s.routineCalls, s.converted⟩
    else
      let pos := startPosWord sm c.chunkIndex startPos startChunk
      let endPos := endPosOf sm sample c.chunkIndex 3
      let s := wordLoop sample.convertOneData c.dataAddr endPos ⟨c1.data, pos, 0, []⟩
      ⟨{ c1 with data := s.data }, s.routineCalls, s.converted⟩
  else ⟨c, 0, []⟩

/-- The buffer `data` with every 3-byte group that starts at `p`, `p + 3`, ...
below `e` reversed end to end: the closed form of what `swapLoop` computes. -/
def swappedRange (data : Int → Nat) (p e : Int) : Int → Nat := fun i =>
  if p ≤ i ∧ i - (i - p) % 3 < e then
    if (i - p) % 3 = 0 then data (i + 2)
    else if (i - p) % 3 = 2 then data (i - 2)
    else data i
  else data i

/-! ## Eviction: `mayBeStolen` and `steal` -/

/-- The method `Cluster::mayBeStolen`. -/
def Cluster.mayBeStolen (c : Cluster) (thingNotToStealFrom : Ptr) : Bool :=
  if c.numReasonsToBeLoaded ≠ 0 then false
  else if thingNotToStealFrom = NULL then true
  else
    match c.type with
    | ClusterType.sampleCache => c.sampleCache != thingNotToStealFrom
    | ClusterType.percCacheForwards => c.sample != thingNotToStealFrom
    | ClusterType.percCacheReversed => c.sample != thingNotToStealFrom
    | _ => true

/-- What `steal` tells the owner of a chunk: `SampleCache::chunkStolen(chunkIndex)`
on a cache, or `Sample::percCacheChunkStolen(cluster)` on a sample. -/
inductive StolenNotice where
  | chunkStolen (sampleCache : Ptr) (chunkIndex : Int)
  | percCacheChunkStolen (sample : Ptr) (cluster : Ptr)
deriving DecidableEq, Repr

/-- The objects that chunks point to: the samples by address, and the
notifications sent to owners so far, oldest first. -/
structure Heap where
  samples : Ptr → Sample
  notices : List StolenNotice

/-- The sample at `p` with slot `chunkIndex` of its chunk table set to `v`. -/
def Sample.setLoadedSampleChunk (s : Sample) (chunkIndex : Int) (v : Ptr) : Sample :=
  { s with clusters := Function.update s.clusters chunkIndex v }

/-- The method `Cluster::steal`, called on the chunk at address `self`. The result is an
error when the build halts in `freezeWithError`, or when a production build
goes on to dereference a null owner. -/
def Cluster.steal (alphaOrBetaVersion : Bool) (self : Ptr) (c : Cluster) (h : Heap) :
    Except String Heap :=
  match c.type with
  | ClusterType.sample =>
    if alphaOrBetaVersion && c.sample == NULL then Except.error "E181"
    else if c.sample = NULL then Except.error "null sample"
    else
      Except.ok { h with
        samples := Function.update h.samples c.sample
          ((h.samples c.sample).setLoadedSampleChunk c.chunkIndex NULL) }
  | ClusterType.sampleCache =>
    if alphaOrBetaVersion && c.sampleCache == NULL then Except.error "E183"
    else if c.sampleCache = NULL then Except.error "null sampleCache"
    else
      Except.ok { h with
        notices := h.notices ++ [StolenNotice.chunkStolen c.sampleCache c.chunkIndex] }
  | ClusterType.percCacheForwards =>
    if alphaOrBetaVersion && c.sample == NULL then Except.error "E184"
    else if c.sample = NULL then Except.error "null sample"
    else
      Except.ok { h with
        notices := h.notices ++ [StolenNotice.percCacheChunkStolen c.sample self] }
  | ClusterType.percCacheReversed =>
    if alphaOrBetaVersion && c.sample == NULL then Except.error "E184"
    else if c.sample = NULL then Except.error "null sample"
    else
      Except.ok { h with
        notices := h.notices ++ [StolenNotice.percCacheChunkStolen c.sample self] }
  | ClusterType.other => Except.ok h

/-! ## The sliding-window holder -/

/-- The bookkeeping of the pool as the holder sees it: the reason count of each
chunk, the number of calls made to `removeReasonFromLoadedSampleChunk`, and
the chunk indices requested through `getLoadedSampleChunk`, oldest first. -/
structure Pool where
  reasons : Ptr → Int
  removeCalls : Nat
  requested : List Int

/-- Modelled from the spec: the release-reference operation of the pool
`SampleManager::removeReasonFromLoadedSampleChunk` (its body is in
`SampleManager.cpp`, not among the sources): one reason is taken off the
chunk. -/
def Pool.removeReasonFromLoadedSampleChunk (p : Pool) (chunk : Ptr) : Pool :=
  { p with reasons := Function.update p.reasons chunk (p.reasons chunk - 1),
           removeCalls := p.removeCalls + 1 }

/-- Modelled from the spec: the acquire/load operation of the pool
`SampleCluster::getLoadedSampleChunk` (its body is in `SampleCluster.cpp`, not
among the sources), taking a chunk index and a load urgency and returning a
chunk reference or none. `supply chunkIndex instruction` is the chunk that the
pool can hand out for that index (`NULL` when it cannot); a chunk handed out
gets one more reason. -/
def Pool.getLoadedSampleChunk (supply : Int → Nat → Ptr) (p : Pool) (chunkIndex : Int)
    (chunkLoadInstruction : Nat) : Ptr × Pool :=
  let chunk := supply chunkIndex chunkLoadInstruction
  let p1 := { p with requested := p.requested ++ [chunkIndex] }
  if chunk = NULL then (NULL, p1)
  else (chunk, { p1 with reasons := Function.update p1.reasons chunk (p1.reasons chunk + 1) })

/-- The fields of a `SampleHolder`; `loadedSampleChunksForStart` has
`NUM_SAMPLE_CHUNKS_LOADED_AHEAD` entries. -/
structure SampleHolder where
  startPos : Nat
  endPos : Nat
  waveformViewScroll : Int
  waveformViewZoom : Int
  neutralPhaseIncrement : Nat
  audioFile : Ptr
  loadedSampleChunksForStart : List Ptr

/-- The loop `for (l = 0; l < NUM_SAMPLE_CHUNKS_LOADED_AHEAD; l++)` of
`unassignAllClusterReasons`, over the slots not yet visited. -/
def unassignLoop (beingDestructed : Bool) : List Ptr → Pool → List Ptr × Pool
  | [], p => ([], p)
  | chunk :: rest, p =>
    if chunk ≠ NULL then
      let p1 := p.removeReasonFromLoadedSampleChunk chunk
      let r := unassignLoop beingDestructed rest p1
      ((if !beingDestructed then NULL else chunk) :: r.1, r.2)
    else
      let r := unassignLoop beingDestructed rest p
      (chunk :: r.1, r.2)

/-- The method `SampleHolder::unassignAllClusterReasons`. -/
def SampleHolder.unassignAllClusterReasons (h : SampleHolder) (beingDestructed : Bool)
    (p : Pool) : SampleHolder × Pool :=
  let r := unassignLoop beingDestructed h.loadedSampleChunksForStart p
  ({ h with loadedSampleChunksForStart := r.1 }, r.2)

/-- The loop "Populate new list" of `claimClusterReasonsForMarker`, entered
with `todo` slots still to visit, the next one being slot `l`. -/
def populateLoop (supply : Int → Nat → Ptr) (first firstNone : Int) (playDirection : Int)
    (chunkLoadInstruction : Nat) :
    Nat → Nat → Int → List Ptr → Pool → List Ptr × Pool
  | 0, _, _, newLoadedSampleChunks, p => (newLoadedSampleChunks, p)
  | todo + 1, l, chunkIndex, newLoadedSampleChunks, p =>
    let r := p.getLoadedSampleChunk supply chunkIndex chunkLoadInstruction
    let newLoadedSampleChunks := newLoadedSampleChunks.set l r.1
    let chunkIndex := wrapI32 (chunkIndex + playDirection)
    if chunkIndex < first ∨ chunkIndex ≥ firstNone then (newLoadedSampleChunks, r.2)
    else
      populateLoop supply first firstNone playDirection chunkLoadInstruction
        todo (l + 1) chunkIndex newLoadedSampleChunks r.2

/-- The loop "Replace old list" of `claimClusterReasonsForMarker`, over the
slots not yet visited, paired with their new contents. -/
def replaceLoop : List Ptr → List Ptr → Pool → List Ptr × Pool
  | old :: restOld, new :: restNew, p =>
    let p1 := if old ≠ NULL then p.removeReasonFromLoadedSampleChunk old else p
    let r := replaceLoop restOld restNew p1
    (new :: r.1, r.2)
  | _, _, p => ([], p)

/-- The method `SampleHolder::claimClusterReasonsForMarker` on the window
`loadedSampleChunks` of `numChunksLoadedAhead` slots, `sample` being the
holder's audio file. -/
def claimClusterReasonsForMarker (sm : SampleManager) (sample : Sample)
    (supply : Int → Nat → Ptr) (numChunksLoadedAhead : Nat) (loadedSampleChunks : List Ptr)
    (startPlaybackAtByte : Nat) (playDirection : Int) (chunkLoadInstruction : Nat) (p : Pool) :
    List Ptr × Pool :=
  let chunkIndex : Int := wrapI32 (wrapU32 startPlaybackAtByte >>> sm.clusterSizeMagnitude)
  let newLoadedSampleChunks : List Ptr := List.replicate numChunksLoadedAhead NULL
  let r := populateLoop supply (sample.getFirstChunkIndexWithAudioData sm)
    (sample.getFirstChunkIndexWithNoAudioData sm) playDirection chunkLoadInstruction
    numChunksLoadedAhead 0 chunkIndex newLoadedSampleChunks p
  replaceLoop loadedSampleChunks r.1 r.2

/-! ## The holder: playback range and window anchoring -/

/-- The constructor `SampleHolder::SampleHolder` for a window of
`numChunksLoadedAhead` slots; the two fields that the constructor leaves
uninitialised are given, and no file is bound yet. -/
def SampleHolder.construct (numChunksLoadedAhead : Nat) (waveformViewScroll : Int)
    (neutralPhaseIncrement : Nat) : SampleHolder :=
  { startPos := 0, endPos := 9999999, waveformViewScroll := waveformViewScroll,
    waveformViewZoom := 0, neutralPhaseIncrement := neutralPhaseIncrement, audioFile := NULL,
    loadedSampleChunksForStart := List.replicate numChunksLoadedAhead NULL }

/-- The method `SampleHolder::getEndPos`, `sample` being the audio file of the
holder. -/
def SampleHolder.getEndPos (h : SampleHolder) (sample : Sample) (forTimeStretching : Bool) :
    Int :=
  if forTimeStretching then (h.endPos : Int)
  else min (h.endPos : Int) (sample.lengthInSamples : Int)

/-- The method `SampleHolder::getDurationInSamples`. -/
def SampleHolder.getDurationInSamples (h : SampleHolder) (sample : Sample)
    (forTimeStretching : Bool) : Int :=
  h.getEndPos sample forTimeStretching - (h.startPos : Int)

/-- The constant `MARKER_SAMPLES_BEFORE_TO_CLAIM`. -/
def MARKER_SAMPLES_BEFORE_TO_CLAIM : Int := 150

/-- The local `int startPlaybackAtSample` of `claimClusterReasons`; `getEndPos()`
is called there with its default argument, taken to be `false`. -/
def SampleHolder.startPlaybackAtSample (h : SampleHolder) (sample : Sample) (reversed : Bool) :
    Int :=
  if !reversed then
    let startPlaybackAtSample := wrapI32 ((h.startPos : Int) - MARKER_SAMPLES_BEFORE_TO_CLAIM)
    if startPlaybackAtSample < 0 then 0 else startPlaybackAtSample
  else
    let startPlaybackAtSample :=
      wrapI32 (h.getEndPos sample false - 1 + MARKER_SAMPLES_BEFORE_TO_CLAIM)
    if startPlaybackAtSample > (sample.lengthInSamples : Int) - 1 then
      wrapI32 ((sample.lengthInSamples : Int) - 1)
    else startPlaybackAtSample

/-- The local `int startPlaybackAtByte` of `claimClusterReasons`. -/
def SampleHolder.startPlaybackAtByte (h : SampleHolder) (sample : Sample) (reversed : Bool) :
    Int :=
  let bytesPerSample := wrapI32 ((sample.numChannels : Int) * sample.byteDepth)
  wrapI32 ((sample.audioDataStartPosBytes : Int)
    + h.startPlaybackAtSample sample reversed * bytesPerSample)

/-- The method `SampleHolder::claimClusterReasons` on a holder whose audio file
is `sample`; the byte offset is handed over as a `uint32_t`. -/
def SampleHolder.claimClusterReasons (sm : SampleManager) (sample : Sample)
    (supply : Int → Nat → Ptr) (numChunksLoadedAhead : Nat) (h : SampleHolder)
    (reversed : Bool) (chunkLoadInstruction : Nat) (p : Pool) : SampleHolder × Pool :=
  let playDirection : Int := if reversed then -1 else 1
  let startPlaybackAtByte := h.startPlaybackAtByte sample reversed
  let r := claimClusterReasonsForMarker sm sample supply numChunksLoadedAhead
    h.loadedSampleChunksForStart (wrapU32 startPlaybackAtByte).toNat playDirection
    chunkLoadInstruction p
  ({ h with loadedSampleChunksForStart := r.1 }, r.2)

/-- A holder together with the objects it points into: the samples and the
pool. -/
structure HolderWorld where
  holder : SampleHolder
  heap : Heap
  pool : Pool

/-- The sample at `file` with `d` added to its reason count. -/
def Heap.addFileReasons (h : Heap) (file : Ptr) (d : Int) : Heap :=
  { h with samples := (Function.update h.samples file
      ({ h.samples file with numReasons := (h.samples file).numReasons + d })) }

/-- Modelled from the spec: the base-class `AudioFileHolder::setAudioFile` (its
body is in `AudioFileHolder.cpp`, not among the sources). A file already bound
has its window released and its reason dropped; the new file is bound and, when
not null, gains a reason. -/
def AudioFileHolder.setAudioFile (w : HolderWorld) (newAudioFile : Ptr) : HolderWorld :=
  let w1 : HolderWorld :=
    if w.holder.audioFile ≠ NULL then
      let r := w.holder.unassignAllClusterReasons false w.pool
      { holder := r.1, heap := w.heap.addFileReasons w.holder.audioFile (-1), pool := r.2 }
    else w
  let w2 : HolderWorld := { w1 with holder := { w1.holder with audioFile := newAudioFile } }
  if newAudioFile ≠ NULL then { w2 with heap := w2.heap.addFileReasons newAudioFile 1 }
  else w2

/-- The range that `setAudioFile` leaves in a holder for a file whose length,
held in the local `uint32_t lengthInSamples`, is given. -/
def SampleHolder.setZone (h : SampleHolder) (manuallySelected : Bool) (lengthInSamples : Nat) :
    SampleHolder :=
  if manuallySelected then
    { h with startPos := 0, endPos := lengthInSamples }
  else
    let startPos := min h.startPos lengthInSamples
    let endPos := if h.endPos = 0 ∨ h.endPos = 9999999 then lengthInSamples else h.endPos
    let startPos := if endPos ≤ startPos then 0 else startPos
    { h with startPos := startPos, endPos := endPos }

/-- The method `SampleHolder::setAudioFile`. The virtual hook `sampleBeenSet`
does nothing in `SampleHolder` itself, and the browser path is not modelled. -/
def SampleHolder.setAudioFile (sm : SampleManager) (supply : Int → Nat → Ptr)
    (numChunksLoadedAhead : Nat) (w : HolderWorld) (newSample : Ptr)
    (reversed manuallySelected : Bool) (chunkLoadInstruction : Nat) : HolderWorld :=
  let w1 := AudioFileHolder.setAudioFile w newSample
  if w1.holder.audioFile ≠ NULL then
    let sample := w1.heap.samples w1.holder.audioFile
    let lengthInSamples : Nat := sample.lengthInSamples % 4294967296
    let h2 := w1.holder.setZone manuallySelected lengthInSamples
    let r := h2.claimClusterReasons sm sample supply numChunksLoadedAhead reversed
      chunkLoadInstruction w1.pool
    { holder := r.1, heap := w1.heap, pool := r.2 }
  else w1

/-- The method `SampleHolder::beenClonedFrom`; `setAudioFile` is called with
its default arguments, `manuallySelected = false` and the given default load
instruction. The file path is not modelled. -/
def SampleHolder.beenClonedFrom (sm : SampleManager) (supply : Int → Nat → Ptr)
    (numChunksLoadedAhead : Nat) (defaultChunkLoadInstruction : Nat) (w : HolderWorld)
    (other : SampleHolder) (reversed : Bool) : HolderWorld :=
  let w1 :=
    if other.audioFile ≠ NULL then
      SampleHolder.setAudioFile sm supply numChunksLoadedAhead w other.audioFile reversed false
        defaultChunkLoadInstruction
    else w
  let h2 : SampleHolder :=
    { w1.holder with
      startPos := other.startPos, endPos := other.endPos,
      waveformViewScroll := other.waveformViewScroll,
      waveformViewZoom := other.waveformViewZoom }
  { w1 with holder := h2 }

/-! ## Eviction queues -/

/-- The six `STEALABLE_QUEUE_*` constants that `getAppropriateQueue` names;
their values are in `definitions.h`, not among the sources. -/
structure StealableQueues where
  currentSongSampleData : Int
  noSongSampleData : Int
  currentSongSampleDataRepitchedCache : Int
  noSongSampleDataRepitchedCache : Int
  currentSongSampleDataPercCache : Int
  noSongSampleDataPercCache : Int

/-- The method `Cluster::getAppropriateQueue`. `sampleOfCache a` is the `sample`
pointer of the `SampleCache` at address `a`; the result is `none` when the
local `q` is returned without having been assigned. -/
def Cluster.getAppropriateQueue (q : StealableQueues) (h : Heap) (sampleOfCache : Ptr → Ptr)
    (c : Cluster) : Option Int :=
  if c.type = ClusterType.percCacheForwards ∨ c.type = ClusterType.percCacheReversed then
    some (if (h.samples c.sample).numReasons ≠ 0 then q.currentSongSampleDataPercCache
          else q.noSongSampleDataPercCache)
  else if c.sampleCache ≠ NULL then
    some (if (h.samples (sampleOfCache c.sampleCache)).numReasons ≠ 0
          then q.currentSongSampleDataRepitchedCache
          else q.noSongSampleDataRepitchedCache)
  else if c.sample ≠ NULL then
    let q0 := if (h.samples c.sample).numReasons ≠ 0 then q.currentSongSampleData
              else q.noSongSampleData
    some (if (h.samples c.sample).rawDataFormat ≠ RawDataFormat.native then q0 + 1 else q0)
  else none

/-- The invariant that ties the owner pointers of a chunk to its kind: a
time-stretch-cache chunk points to its cache, and a raw-sample chunk points to
its sample and to no cache. -/
def Cluster.OwnerMatchesType (c : Cluster) : Prop :=
  (c.type = ClusterType.sampleCache → c.sampleCache ≠ NULL) ∧
  (c.type = ClusterType.sample → c.sampleCache = NULL ∧ c.sample ≠ NULL)

/-- The reference classification of the specification, by kind of chunk. -/
def specEvictionQueue (q : StealableQueues) (h : Heap) (sampleOfCache : Ptr → Ptr)
    (c : Cluster) : Option Int :=
  match c.type with
  | ClusterType.percCacheForwards =>
    some (if (h.samples c.sample).numReasons ≠ 0 then q.currentSongSampleDataPercCache
          else q.noSongSampleDataPercCache)
  | ClusterType.percCacheReversed =>
    some (if (h.samples c.sample).numReasons ≠ 0 then q.currentSongSampleDataPercCache
          else q.noSongSampleDataPercCache)
  | ClusterType.sampleCache =>
    some (if (h.samples (sampleOfCache c.sampleCache)).numReasons ≠ 0
          then q.currentSongSampleDataRepitchedCache
          else q.noSongSampleDataRepitchedCache)
  | ClusterType.sample =>
    some ((if (h.samples c.sample).numReasons ≠ 0 then q.currentSongSampleData
           else q.noSongSampleData)
          + (if (h.samples c.sample).rawDataFormat ≠ RawDataFormat.native then 1 else 0))
  | ClusterType.other => none

/-- The combination that the queue-separation property ranges over: the class
of the chunk (0 percussion cache, 1 repitch cache, 2 raw sample), whether its
owner is live, and, for a raw-sample chunk only, whether the format is
non-native. -/
def queueCombination (h : Heap) (sampleOfCache : Ptr → Ptr) (c : Cluster) : Nat × Bool × Bool :=
  match c.type with
  | ClusterType.percCacheForwards => (0, decide ((h.samples c.sample).numReasons ≠ 0), false)
  | ClusterType.percCacheReversed => (0, decide ((h.samples c.sample).numReasons ≠ 0), false)
  | ClusterType.sampleCache =>
    (1, decide ((h.samples (sampleOfCache c.sampleCache)).numReasons ≠ 0), false)
  | ClusterType.sample =>
    (2, decide ((h.samples c.sample).numReasons ≠ 0),
      decide ((h.samples c.sample).rawDataFormat ≠ RawDataFormat.native))
  | ClusterType.other => (3, false, false)

/-- The six queue constants are pairwise distinct, and neither raw-sample
constant plus one is any of the six. -/
def StealableQueues.Separated (q : StealableQueues) : Prop :=
  [q.currentSongSampleData, q.noSongSampleData, q.currentSongSampleDataRepitchedCache,
    q.noSongSampleDataRepitchedCache, q.currentSongSampleDataPercCache,
    q.noSongSampleDataPercCache].Nodup ∧
  (∀ x ∈ [q.currentSongSampleData, q.noSongSampleData, q.currentSongSampleDataRepitchedCache,
      q.noSongSampleDataRepitchedCache, q.currentSongSampleDataPercCache,
      q.noSongSampleDataPercCache],
    q.currentSongSampleData + 1 ≠ x ∧ q.noSongSampleData + 1 ≠ x)

/-! ## Concrete objects used to exercise the definitions -/

/-- The owner of a chunk as the specification names it: the cache for a
time-stretch-cache chunk, the sample for every other kind. -/
def Cluster.specOwner (c : Cluster) : Ptr :=
  match c.type with
  | ClusterType.sampleCache => c.sampleCache
  | _ => c.sample

/-- A chunk of the given kind and index whose buffer holds `data`, owned by
the sample at address 7 and the cache at address 9, with nothing in flight. -/
def exampleCluster (type : ClusterType) (chunkIndex : Int) (data : Int → Nat) : Cluster :=
  { type := type, sample := 7, sampleCache := 9, chunkIndex := chunkIndex,
    extraBytesAtStartConverted := false, extraBytesAtEndConverted := false,
    loaded := true, numReasonsHeldBySampleRecorder := 0, numReasonsToBeLoaded := 0,
    firstThreeBytesPreDataConversion := (0, 0, 0), dataAddr := 0, data := data }

/-- A buffer whose byte at offset `i` is `i mod 256`. -/
def rampData : Int → Nat := fun i => (i % 256).toNat

/-- A mono sample with 3-byte frames whose audio data occupies
`[start, start + length)`, in the given on-disk format. -/
def exampleSample (start length : Nat) (format : RawDataFormat) : Sample :=
  { audioDataStartPosBytes := start, audioDataLengthBytes := length,
    rawDataFormat := format, numReasons := 1, lengthInSamples := length / 3,
    numChannels := 1, byteDepth := 3, clusters := fun i => (1000 + i).toNat,
    convertOneData := fun w => (w.2.2.2, w.2.2.1, w.2.1, w.1) }

/-- A heap in which every address holds `exampleSample 100 3000`. -/
def exampleHeap : Heap :=
  { samples := fun _ => exampleSample 100 3000 RawDataFormat.endiannessWrong24, notices := [] }

/-- The pool configuration of the scenario: chunks of 32768 bytes. -/
def pool32k : SampleManager := { clusterSizeMagnitude := 15, clusterSize := 32768 }

/-- A small pool configuration: chunks of 16 bytes. -/
def pool16 : SampleManager := { clusterSizeMagnitude := 4, clusterSize := 16 }

/-- The boundary-correctness property as the specification words it: the
offsets at which chunk `c` swaps a group are exactly the starts of the 3-byte
groups of the audio stream that lie fully or partly within the audio-data
range intersected with the chunk's byte range. -/
def specSwapsGroupsTouchingChunk (sm : SampleManager) (sample : Sample) (c : Cluster) : Prop :=
  ∀ off : Int,
    off ∈ (c.convertDataIfNecessary sm sample).converted ↔
      ((sample.audioDataStartPosBytes : Int) ≤ c.chunkIndex * sm.clusterSize + off ∧
        (c.chunkIndex * sm.clusterSize + off - sample.audioDataStartPosBytes) % 3 = 0 ∧
        max (sample.audioDataStartPosBytes : Int) (c.chunkIndex * sm.clusterSize)
          < c.chunkIndex * sm.clusterSize + off + 3 ∧
        c.chunkIndex * sm.clusterSize + off
          < min ((sample.audioDataStartPosBytes : Int) + sample.audioDataLengthBytes)
              ((c.chunkIndex + 1) * sm.clusterSize))

/-- A holder whose window references chunks 1005 and 1006. -/
def exampleHolder : SampleHolder :=
  { startPos := 0, endPos := 33, waveformViewScroll := 0, waveformViewZoom := 0,
    neutralPhaseIncrement := 16777216, audioFile := 7,
    loadedSampleChunksForStart := [1005, 1006, NULL] }

/-- A pool in which chunks 1005 and 1006 each carry one reason. -/
def examplePool : Pool :=
  { reasons := fun c => if c = 1005 ∨ c = 1006 then 1 else 0, removeCalls := 0, requested := [] }

/-- The range-collapse property as the specification words it: when
`setAudioFile` is called without manual selection and the existing range, once
clamped to the length of the file, is empty or was unset, the range becomes the
full range of the file. -/
def specCollapsesToFullRange (sm : SampleManager) (supply : Int → Nat → Ptr) (N : Nat)
    (w : HolderWorld) (newSample : Ptr) (reversed : Bool) (instr : Nat) : Prop :=
  (w.holder.endPos ≤ min w.holder.startPos (w.heap.samples newSample).lengthInSamples ∨
      w.holder.endPos = 0 ∨ w.holder.endPos = 9999999) →
    (SampleHolder.setAudioFile sm supply N w newSample reversed false instr).holder.startPos = 0 ∧
    (SampleHolder.setAudioFile sm supply N w newSample reversed false instr).holder.endPos
      = (w.heap.samples newSample).lengthInSamples

/-- The start frame of the specification: a margin of 150 frames before
`startPos`, not below 0, when playing forwards; the same margin after the last
frame of the range, not above the last frame of the file, when reversed. -/
def specStartFrame (h : SampleHolder) (sample : Sample) (reversed : Bool) : Int :=
  if reversed then
    min ((sample.lengthInSamples : Int) - 1) (h.getEndPos sample false - 1 + 150)
  else max 0 ((h.startPos : Int) - 150)

/-- A holder bound to the file at address 7, with a range of 50000 to 90000
frames. -/
def cloneSource : SampleHolder :=
  { startPos := 50000, endPos := 90000, waveformViewScroll := 3, waveformViewZoom := 5,
    neutralPhaseIncrement := 16777216, audioFile := 7,
    loadedSampleChunksForStart := [NULL, NULL] }

/-- A heap in which every address holds a mono native sample of 100000 frames
of 3 bytes whose audio data starts at byte 44. -/
def cloneHeap : Heap :=
  { samples := fun _ => exampleSample 44 300000 RawDataFormat.native, notices := [] }

/-- A freshly constructed holder with a window of two slots, in `cloneHeap`,
with a pool that holds no reasons. -/
def freshWorld : HolderWorld :=
  { holder := SampleHolder.construct 2 0 16777216, heap := cloneHeap,
    pool := { reasons := fun _ => 0, removeCalls := 0, requested := [] } }

/-- The termination bounds as the specification words them, for the 24-bit
loop that `convertDataIfNecessary` runs on chunk `c`: the position strictly
increases in the outer iteration, at most `ceil((end - start) / 3)` swaps are
done, and at most `ceil((end - start) / 1024)` calls of the servicing callback
are made. -/
def specConversionLoopBounds (sm : SampleManager) (sample : Sample) (c : Cluster) : Prop :=
  startPos24 sm sample c.chunkIndex (wrapI32 sample.audioDataStartPosBytes)
      (wrapI32 sample.audioDataStartPosBytes >>> sm.clusterSizeMagnitude)
    < (swapLoop
        (quantumEnd (endPosOf sm sample c.chunkIndex 2)
          (startPos24 sm sample c.chunkIndex (wrapI32 sample.audioDataStartPosBytes)
            (wrapI32 sample.audioDataStartPosBytes >>> sm.clusterSizeMagnitude)))
        ⟨c.data, startPos24 sm sample c.chunkIndex (wrapI32 sample.audioDataStartPosBytes)
            (wrapI32 sample.audioDataStartPosBytes >>> sm.clusterSizeMagnitude), 0, []⟩).pos ∧
  ((c.convertDataIfNecessary sm sample).converted.length : Int)
    ≤ (endPosOf sm sample c.chunkIndex 2
        - startPos24 sm sample c.chunkIndex (wrapI32 sample.audioDataStartPosBytes)
            (wrapI32 sample.audioDataStartPosBytes >>> sm.clusterSizeMagnitude) + 2) / 3 ∧
  ((c.convertDataIfNecessary sm sample).routineCalls : Int)
    ≤ (endPosOf sm sample c.chunkIndex 2
        - startPos24 sm sample c.chunkIndex (wrapI32 sample.audioDataStartPosBytes)
            (wrapI32 sample.audioDataStartPosBytes >>> sm.clusterSizeMagnitude) + 1023) / 1024

/-- Byte `r` (0 to 3) of a four-byte word. -/
def wordByte (w : Nat × Nat × Nat × Nat) (r : Int) : Nat :=
  if r = 0 then w.1 else if r = 1 then w.2.1 else if r = 2 then w.2.2.1 else w.2.2.2

/-- The buffer `data` with every four-byte word that starts at `p`, `p + 4`,
... below `e` replaced by its image under `conv`: the closed form of what
`wordLoop` computes. -/
def convertedRange (conv : Nat × Nat × Nat × Nat → Nat × Nat × Nat × Nat) (data : Int → Nat)
    (p e : Int) : Int → Nat := fun i =>
  if p ≤ i ∧ i - (i - p) % 4 < e then
    wordByte (conv (data (i - (i - p) % 4), data (i - (i - p) % 4 + 1),
      data (i - (i - p) % 4 + 2), data (i - (i - p) % 4 + 3))) ((i - p) % 4)
  else data i

/-- The word-conversion property as the specification words it: the offsets at
which chunk `c` converts a word are exactly the starts of the four-byte words
of the audio stream that lie entirely inside the byte range of the chunk and
entirely inside the audio-data range. -/
def specConvertsWholeWords (sm : SampleManager) (sample : Sample) (c : Cluster) : Prop :=
  ∀ off : Int,
    off ∈ (c.convertDataIfNecessary sm sample).converted ↔
      ((sample.audioDataStartPosBytes : Int) ≤ c.chunkIndex * sm.clusterSize + off ∧
        (c.chunkIndex * sm.clusterSize + off - sample.audioDataStartPosBytes) % 4 = 0 ∧
        0 ≤ off ∧ off + 4 ≤ (sm.clusterSize : Int) ∧
        c.chunkIndex * sm.clusterSize + off + 4
          ≤ (sample.audioDataStartPosBytes : Int) + sample.audioDataLengthBytes)

/-! ## Eviction gating -/

/-- C5: a chunk with a non-zero in-flight-load count may not be stolen, whatever
the exclusion argument and whatever the chunk's kind. -/
theorem mayBeStolen_false_of_reasonsToBeLoaded (c : Cluster) (thingNotToStealFrom : Ptr)
    (h : c.numReasonsToBeLoaded ≠ 0) : c.mayBeStolen thingNotToStealFrom = false := by
  unfold Cluster.mayBeStolen
  rw [if_pos h]

theorem mayBeStolen_false_of_reasonsToBeLoaded_witness :
    ({ exampleCluster ClusterType.sample 0 rampData with numReasonsToBeLoaded := 2 }
      : Cluster).mayBeStolen NULL = false :=
  mayBeStolen_false_of_reasonsToBeLoaded _ NULL (by decide)

/-- C6, as stated, fails: a raw-sample chunk with nothing in flight may be
stolen even when the exclusion argument is its own (non-null) sample. -/
theorem mayBeStolen_specOwner_counterexample :
    ¬ ((exampleCluster ClusterType.sample 0 rampData).mayBeStolen 7 = false ↔
        ((7 : Ptr) ≠ NULL ∧ 7 = (exampleCluster ClusterType.sample 0 rampData).specOwner)) := by
  decide

/-- C6, amended: with nothing in flight, `mayBeStolen` is false exactly when the
exclusion argument is non-null and the chunk is a time-stretch-cache chunk of
that cache, or a percussion-cache chunk (either direction) of that sample; a
raw-sample chunk, and a chunk of any other kind, may always be stolen. -/
theorem mayBeStolen_eq_false_iff (c : Cluster) (thingNotToStealFrom : Ptr)
    (h : c.numReasonsToBeLoaded = 0) :
    c.mayBeStolen thingNotToStealFrom = false ↔
      thingNotToStealFrom ≠ NULL ∧
        ((c.type = ClusterType.sampleCache ∧ c.sampleCache = thingNotToStealFrom) ∨
         ((c.type = ClusterType.percCacheForwards ∨ c.type = ClusterType.percCacheReversed) ∧
            c.sample = thingNotToStealFrom)) := by
  unfold Cluster.mayBeStolen
  by_cases hn : thingNotToStealFrom = NULL
  · simp [h, hn]
  · cases ht : c.type <;> simp [h, hn]

theorem mayBeStolen_eq_false_iff_witness :
    (exampleCluster ClusterType.percCacheReversed 3 rampData).mayBeStolen 7 = false ↔
      (7 : Ptr) ≠ NULL ∧
        ((ClusterType.percCacheReversed = ClusterType.sampleCache ∧ (9 : Ptr) = 7) ∨
         ((ClusterType.percCacheReversed = ClusterType.percCacheForwards ∨
            ClusterType.percCacheReversed = ClusterType.percCacheReversed) ∧ (7 : Ptr) = 7)) :=
  mayBeStolen_eq_false_iff (exampleCluster ClusterType.percCacheReversed 3 rampData) 7 rfl

/-! ## Stealing a raw-sample chunk -/

/-- C7: stealing a raw-sample chunk with a non-null owning sample succeeds,
empties slot `chunkIndex` of the owner's chunk table, and leaves every other
slot of that table and every other sample as it was. -/
theorem steal_sample_clears_slot (alphaOrBetaVersion : Bool) (self : Ptr) (c : Cluster)
    (h : Heap) (ht : c.type = ClusterType.sample) (hs : c.sample ≠ NULL) :
    ∃ h1, c.steal alphaOrBetaVersion self h = Except.ok h1 ∧
      (h1.samples c.sample).clusters c.chunkIndex = NULL ∧
      (∀ i, i ≠ c.chunkIndex →
        (h1.samples c.sample).clusters i = (h.samples c.sample).clusters i) ∧
      (∀ q, q ≠ c.sample → h1.samples q = h.samples q) := by
  refine ⟨{ h with samples := (Function.update h.samples c.sample
      ((h.samples c.sample).setLoadedSampleChunk c.chunkIndex NULL)) }, ?_, ?_, ?_, ?_⟩
  · unfold Cluster.steal
    simp [ht, hs]
  · simp [Sample.setLoadedSampleChunk]
  · intro i hi
    simp [Sample.setLoadedSampleChunk, Function.update_noteq hi]
  · intro q hq
    simp [Function.update_noteq hq]

theorem steal_sample_clears_slot_witness :
    ∃ h1, (exampleCluster ClusterType.sample 5 rampData).steal true 77 exampleHeap
        = Except.ok h1 ∧
      (h1.samples 7).clusters 5 = NULL ∧
      (∀ i, i ≠ 5 → (h1.samples 7).clusters i = (exampleHeap.samples 7).clusters i) ∧
      (∀ q, q ≠ 7 → h1.samples q = exampleHeap.samples q) :=
  steal_sample_clears_slot true 77 (exampleCluster ClusterType.sample 5 rampData) exampleHeap
    rfl (by decide)

/-! ## The holder's window -/

theorem wrapI32_of_fits (x : Int) (h1 : -2147483648 ≤ x) (h2 : x < 2147483648) :
    wrapI32 x = x := by
  unfold wrapI32; omega

theorem wrapU32_of_fits (x : Int) (h1 : 0 ≤ x) (h2 : x < 4294967296) : wrapU32 x = x := by
  unfold wrapU32; omega

theorem populateLoop_length (supply : Int → Nat → Ptr) (first firstNone d : Int) (instr : Nat)
    (todo l : Nat) (ci : Int) (new : List Ptr) (p : Pool) :
    (populateLoop supply first firstNone d instr todo l ci new p).1.length = new.length := by
  induction todo generalizing l ci new p with
  | zero => simp [populateLoop]
  | succ n ih =>
    simp only [populateLoop]
    split
    · simp
    · rw [ih]; simp

theorem getLoadedSampleChunk_removeCalls (supply : Int → Nat → Ptr) (p : Pool) (ci : Int)
    (instr : Nat) : (p.getLoadedSampleChunk supply ci instr).2.removeCalls = p.removeCalls := by
  unfold Pool.getLoadedSampleChunk
  dsimp only
  split <;> rfl

theorem getLoadedSampleChunk_fst (supply : Int → Nat → Ptr) (p : Pool) (ci : Int)
    (instr : Nat) : (p.getLoadedSampleChunk supply ci instr).1 = supply ci instr := by
  unfold Pool.getLoadedSampleChunk
  dsimp only
  split
  · next h => simp [h]
  · rfl

theorem getLoadedSampleChunk_requested (supply : Int → Nat → Ptr) (p : Pool) (ci : Int)
    (instr : Nat) :
    (p.getLoadedSampleChunk supply ci instr).2.requested = p.requested ++ [ci] := by
  unfold Pool.getLoadedSampleChunk
  dsimp only
  split <;> rfl

theorem getLoadedSampleChunk_reasons (supply : Int → Nat → Ptr) (p : Pool) (ci : Int)
    (instr : Nat) (c : Ptr) (hc : c ≠ NULL) :
    (p.getLoadedSampleChunk supply ci instr).2.reasons c =
      p.reasons c + if supply ci instr = c then 1 else 0 := by
  unfold Pool.getLoadedSampleChunk
  by_cases hn : supply ci instr = NULL
  · have : ¬ (NULL = c) := fun e => hc e.symm
    simp [hn, this]
  · by_cases he : supply ci instr = c
    · subst he
      simp [hn]
    · have he2 : c ≠ supply ci instr := fun e => he e.symm
      simp [hn, he, Function.update_noteq he2]

theorem populateLoop_removeCalls (supply : Int → Nat → Ptr) (first firstNone d : Int)
    (instr : Nat) (todo l : Nat) (ci : Int) (new : List Ptr) (p : Pool) :
    (populateLoop supply first firstNone d instr todo l ci new p).2.removeCalls
      = p.removeCalls := by
  induction todo generalizing l ci new p with
  | zero => simp [populateLoop]
  | succ n ih =>
    simp only [populateLoop]
    split
    · simp [getLoadedSampleChunk_removeCalls]
    · rw [ih]; simp [getLoadedSampleChunk_removeCalls]

theorem replaceLoop_fst (old new : List Ptr) (p : Pool) (h : old.length = new.length) :
    (replaceLoop old new p).1 = new := by
  induction old generalizing new p with
  | nil =>
    cases new with
    | nil => simp [replaceLoop]
    | cons b t => simp at h
  | cons a rest ih =>
    cases new with
    | nil => simp at h
    | cons b t =>
      simp only [replaceLoop]
      rw [ih]
      simpa using h

theorem replaceLoop_removeCalls (old new : List Ptr) (p : Pool) (h : old.length = new.length) :
    (replaceLoop old new p).2.removeCalls = p.removeCalls + old.countP (fun c => c != NULL) := by
  induction old generalizing new p with
  | nil =>
    cases new with
    | nil => simp [replaceLoop]
    | cons b t => simp at h
  | cons a rest ih =>
    cases new with
    | nil => simp at h
    | cons b t =>
      simp only [replaceLoop]
      rw [ih _ _ (by simpa using h), List.countP_cons]
      by_cases ha : a = NULL
      · simp [ha]
      · simp [ha, Pool.removeReasonFromLoadedSampleChunk]; omega

theorem replaceLoop_reasons (old new : List Ptr) (p : Pool) (h : old.length = new.length)
    (c : Ptr) (hc : c ≠ NULL) :
    (replaceLoop old new p).2.reasons c = p.reasons c - old.count c := by
  induction old generalizing new p with
  | nil =>
    cases new with
    | nil => simp [replaceLoop]
    | cons b t => simp at h
  | cons a rest ih =>
    cases new with
    | nil => simp at h
    | cons b t =>
      simp only [replaceLoop]
      rw [ih _ _ (by simpa using h), List.count_cons]
      by_cases ha : a = NULL
      · have : ¬ (NULL = c) := fun e => hc e.symm
        simp [ha, this]
      · by_cases hac : a = c
        · subst hac
          simp [ha, Pool.removeReasonFromLoadedSampleChunk]; omega
        · have hca : c ≠ a := fun e => hac e.symm
          simp [ha, hac, Pool.removeReasonFromLoadedSampleChunk, Function.update_noteq hca]

theorem populateLoop_reasons (supply : Int → Nat → Ptr) (first firstNone d : Int) (instr : Nat)
    (c : Ptr) (hc : c ≠ NULL) (todo l : Nat) (ci : Int) (new : List Ptr) (p : Pool)
    (hroom : l + todo ≤ new.length)
    (hnull : ∀ j, l ≤ j → new[j]? = some NULL ∨ new[j]? = none) :
    (populateLoop supply first firstNone d instr todo l ci new p).2.reasons c
        + new.count c
      = p.reasons c
        + (populateLoop supply first firstNone d instr todo l ci new p).1.count c := by
  induction todo generalizing l ci new p with
  | zero => simp [populateLoop]
  | succ n ih =>
    have hl : l < new.length := by omega
    have hnl : new[l] = NULL := by
      rcases hnull l (le_refl l) with h | h
      · rw [List.getElem?_eq_getElem hl] at h
        exact Option.some.inj h
      · rw [List.getElem?_eq_getElem hl] at h
        exact absurd h (by simp)
    have hcount : (new.set l (supply ci instr)).count c
        = new.count c + if supply ci instr = c then 1 else 0 := by
      rw [List.count_set _ _ _ _ hl, hnl]
      have : ¬ (NULL = c) := fun e => hc e.symm
      simp [this]
    simp only [populateLoop, getLoadedSampleChunk_fst]
    split
    · simp only []
      rw [getLoadedSampleChunk_reasons _ _ _ _ _ hc, hcount]
      push_cast
      omega
    · have hrec := ih (l + 1) (wrapI32 (ci + d)) (new.set l (supply ci instr))
        (p.getLoadedSampleChunk supply ci instr).2 (by rw [List.length_set]; omega)
        (by
          intro j hj
          rw [List.getElem?_set_ne (by omega)]
          exact hnull j (by omega))
      rw [getLoadedSampleChunk_reasons _ _ _ _ _ hc, hcount] at hrec
      push_cast at hrec
      omega

theorem populateLoop_slots (supply : Int → Nat → Ptr) (first firstNone d : Int) (instr : Nat)
    (hd : d = 1 ∨ d = -1) (hfirst : 0 ≤ first) (hint : firstNone < 2147483648)
    (todo l : Nat) (ci : Int) (new : List Ptr) (p : Pool)
    (hroom : l + todo ≤ new.length) (hci : first ≤ ci ∧ ci < firstNone) (j : Nat) :
    (populateLoop supply first firstNone d instr todo l ci new p).1[j]? =
      if l ≤ j ∧ j < l + todo ∧ first ≤ ci + ((j : Int) - l) * d
          ∧ ci + ((j : Int) - l) * d < firstNone
      then some (supply (ci + ((j : Int) - l) * d) instr) else new[j]? := by
  induction todo generalizing l ci new p with
  | zero =>
    simp only [populateLoop]
    rw [if_neg (by omega)]
  | succ n ih =>
    have hl : l < new.length := by omega
    have hw : wrapI32 (ci + d) = ci + d := by
      apply wrapI32_of_fits <;> rcases hd with h | h <;> subst h <;> omega
    simp only [populateLoop, getLoadedSampleChunk_fst, hw]
    by_cases hout : ci + d < first ∨ ci + d ≥ firstNone
    · rw [if_pos hout, List.getElem?_set]
      by_cases hlj : l = j
      · subst hlj
        have e : ci + ((l : Int) - l) * d = ci := by simp
        rw [if_pos rfl, if_pos hl, e, if_pos (by omega)]
      · rw [if_neg hlj, if_neg]
        rintro ⟨h1, h2, h3, h4⟩
        rcases hd with h | h <;> subst h <;> omega
    · rw [if_neg hout, ih (l + 1) (ci + d) _ _ (by rw [List.length_set]; omega) (by omega),
        List.getElem?_set]
      by_cases hlj : l = j
      · subst hlj
        have e : ci + ((l : Int) - l) * d = ci := by simp
        rw [if_neg (by omega), if_pos rfl, if_pos hl, e, if_pos (by omega)]
      · rw [if_neg hlj]
        have e : ci + d + ((j : Int) - ((l + 1 : Nat) : Int)) * d = ci + ((j : Int) - l) * d := by
          push_cast; ring
        rw [e]
        by_cases hc : l ≤ j ∧ j < l + (n + 1) ∧ first ≤ ci + ((j : Int) - l) * d
            ∧ ci + ((j : Int) - l) * d < firstNone
        · rw [if_pos hc, if_pos (by omega)]
        · rw [if_neg hc, if_neg]
          intro h
          exact hc (by omega)

theorem populateLoop_requested (supply : Int → Nat → Ptr) (first firstNone d : Int)
    (instr : Nat) (hd : d = 1 ∨ d = -1) (hfirst : 0 ≤ first) (hint : firstNone < 2147483648)
    (todo l : Nat) (ci : Int) (new : List Ptr) (p : Pool)
    (hci : first ≤ ci ∧ ci < firstNone) (x : Int) :
    x ∈ (populateLoop supply first firstNone d instr todo l ci new p).2.requested ↔
      x ∈ p.requested ∨
        ∃ m : Nat, m < todo ∧ x = ci + (m : Int) * d ∧ first ≤ x ∧ x < firstNone := by
  induction todo generalizing l ci new p with
  | zero => simp [populateLoop]
  | succ n ih =>
    have hw : wrapI32 (ci + d) = ci + d := by
      apply wrapI32_of_fits <;> rcases hd with h | h <;> subst h <;> omega
    simp only [populateLoop, hw]
    by_cases hout : ci + d < first ∨ ci + d ≥ firstNone
    · rw [if_pos hout]
      simp only [getLoadedSampleChunk_requested, List.mem_append, List.mem_singleton]
      constructor
      · rintro (h | h)
        · exact Or.inl h
        · exact Or.inr ⟨0, by omega, by simp [h], by omega, by omega⟩
      · rintro (h | ⟨m, hm, hx, h1, h2⟩)
        · exact Or.inl h
        · right
          rcases hd with h | h <;> subst h <;> omega
    · rw [if_neg hout, ih (l + 1) (ci + d) _ _ (by omega)]
      simp only [getLoadedSampleChunk_requested, List.mem_append, List.mem_singleton]
      constructor
      · rintro ((h | h) | ⟨m, hm, hx, h1, h2⟩)
        · exact Or.inl h
        · exact Or.inr ⟨0, by omega, by simp [h], by omega, by omega⟩
        · refine Or.inr ⟨m + 1, by omega, ?_, h1, h2⟩
          rw [hx]; push_cast; ring
      · rintro (h | ⟨m, hm, hx, h1, h2⟩)
        · exact Or.inl (Or.inl h)
        · cases m with
          | zero => exact Or.inl (Or.inr (by simpa using hx))
          | succ k =>
            refine Or.inr ⟨k, by omega, ?_, h1, h2⟩
            rw [hx]; push_cast; ring

theorem getFirstChunkIndexWithAudioData_nonneg (sm : SampleManager) (sample : Sample) :
    0 ≤ sample.getFirstChunkIndexWithAudioData sm := by
  unfold Sample.getFirstChunkIndexWithAudioData
  rw [Int.shiftRight_eq_div_pow]
  exact Int.ediv_nonneg (Int.ofNat_nonneg _) (Int.ofNat_nonneg _)

/-- C8: after `claimClusterReasonsForMarker` the window still has its `N` slots,
so at most `N` of them are non-empty, and the number of calls made to
`removeReasonFromLoadedSampleChunk` during the call is the number of non-empty
slots the window had before it. -/
theorem claimClusterReasonsForMarker_window_bound (sm : SampleManager) (sample : Sample)
    (supply : Int → Nat → Ptr) (N : Nat) (window : List Ptr) (startPlaybackAtByte : Nat)
    (playDirection : Int) (chunkLoadInstruction : Nat) (p : Pool)
    (hlen : window.length = N) :
    (claimClusterReasonsForMarker sm sample supply N window startPlaybackAtByte playDirection
        chunkLoadInstruction p).1.length = N ∧
    (claimClusterReasonsForMarker sm sample supply N window startPlaybackAtByte playDirection
        chunkLoadInstruction p).1.countP (fun c => c != NULL) ≤ N ∧
    (claimClusterReasonsForMarker sm sample supply N window startPlaybackAtByte playDirection
        chunkLoadInstruction p).2.removeCalls
      = p.removeCalls + window.countP (fun c => c != NULL) := by
  have hl : window.length = (populateLoop supply (sample.getFirstChunkIndexWithAudioData sm)
      (sample.getFirstChunkIndexWithNoAudioData sm) playDirection chunkLoadInstruction N 0
      (wrapI32 (wrapU32 startPlaybackAtByte >>> sm.clusterSizeMagnitude))
      (List.replicate N NULL) p).1.length := by
    rw [populateLoop_length, List.length_replicate, hlen]
  have h1 : (claimClusterReasonsForMarker sm sample supply N window startPlaybackAtByte
      playDirection chunkLoadInstruction p).1.length = N := by
    unfold claimClusterReasonsForMarker
    simp only []
    rw [replaceLoop_fst _ _ _ hl, populateLoop_length, List.length_replicate]
  refine ⟨h1, ?_, ?_⟩
  · calc _ ≤ _ := List.countP_le_length _
      _ = N := h1
  · unfold claimClusterReasonsForMarker
    simp only []
    rw [replaceLoop_removeCalls _ _ _ hl, populateLoop_removeCalls]

theorem claimClusterReasonsForMarker_window_bound_witness :
    (claimClusterReasonsForMarker pool16 (exampleSample 1 100 RawDataFormat.native)
        (fun i _ => (1000 + i).toNat) 3 [1004, 1005, NULL] 85 1 0
        ⟨fun _ => 1, 0, []⟩).1.length = 3 ∧
    (claimClusterReasonsForMarker pool16 (exampleSample 1 100 RawDataFormat.native)
        (fun i _ => (1000 + i).toNat) 3 [1004, 1005, NULL] 85 1 0
        ⟨fun _ => 1, 0, []⟩).1.countP (fun c => c != NULL) ≤ 3 ∧
    (claimClusterReasonsForMarker pool16 (exampleSample 1 100 RawDataFormat.native)
        (fun i _ => (1000 + i).toNat) 3 [1004, 1005, NULL] 85 1 0
        ⟨fun _ => 1, 0, []⟩).2.removeCalls
      = 0 + [1004, 1005, NULL].countP (fun c => c != NULL) :=
  claimClusterReasonsForMarker_window_bound pool16 (exampleSample 1 100 RawDataFormat.native)
    (fun i _ => (1000 + i).toNat) 3 [1004, 1005, NULL] 85 1 0 ⟨fun _ => 1, 0, []⟩ rfl

/-- C9: when the chunk index `s` of the byte offset lies in the owner's range of
audio-data chunks `[first, firstNone)` and the direction `d` is `+1` or `-1`,
slot `l` of the window ends up holding what the pool supplies for chunk
`s + l * d` if that index is still in the range, and is empty otherwise; the
chunk indices requested during the call are exactly the `s + l * d`, `l < N`,
that lie in the range, with no wrap-around. -/
theorem claimClusterReasonsForMarker_slots (sm : SampleManager) (sample : Sample)
    (supply : Int → Nat → Ptr) (N : Nat) (window : List Ptr) (startPlaybackAtByte : Nat)
    (playDirection : Int) (chunkLoadInstruction : Nat) (p : Pool)
    (hsm : sm.WellFormed) (hlen : window.length = N)
    (hbyte : startPlaybackAtByte < 4294967296)
    (hint : sample.getFirstChunkIndexWithNoAudioData sm < 2147483648)
    (hd : playDirection = 1 ∨ playDirection = -1)
    (hs : sample.getFirstChunkIndexWithAudioData sm ≤ (startPlaybackAtByte : Int) / sm.clusterSize
        ∧ (startPlaybackAtByte : Int) / sm.clusterSize
            < sample.getFirstChunkIndexWithNoAudioData sm) :
    (∀ l : Nat, l < N →
      (claimClusterReasonsForMarker sm sample supply N window startPlaybackAtByte playDirection
          chunkLoadInstruction p).1[l]? =
        some (if sample.getFirstChunkIndexWithAudioData sm
                  ≤ (startPlaybackAtByte : Int) / sm.clusterSize + (l : Int) * playDirection ∧
                (startPlaybackAtByte : Int) / sm.clusterSize + (l : Int) * playDirection
                  < sample.getFirstChunkIndexWithNoAudioData sm
              then supply ((startPlaybackAtByte : Int) / sm.clusterSize + (l : Int) * playDirection)
                chunkLoadInstruction
              else NULL)) ∧
    (∀ x : Int,
      x ∈ (claimClusterReasonsForMarker sm sample supply N window startPlaybackAtByte
          playDirection chunkLoadInstruction p).2.requested ↔
        x ∈ p.requested ∨
          ∃ l : Nat, l < N ∧
            x = (startPlaybackAtByte : Int) / sm.clusterSize + (l : Int) * playDirection ∧
            sample.getFirstChunkIndexWithAudioData sm ≤ x ∧
            x < sample.getFirstChunkIndexWithNoAudioData sm) := by
  have hfirst := getFirstChunkIndexWithAudioData_nonneg sm sample
  have hci : wrapI32 (wrapU32 startPlaybackAtByte >>> sm.clusterSizeMagnitude)
      = (startPlaybackAtByte : Int) / sm.clusterSize := by
    rw [wrapU32_of_fits _ (Int.ofNat_nonneg _) (by omega), Int.shiftRight_eq_div_pow,
      ← hsm]
    apply wrapI32_of_fits <;> omega
  have hl : window.length = (populateLoop supply (sample.getFirstChunkIndexWithAudioData sm)
      (sample.getFirstChunkIndexWithNoAudioData sm) playDirection chunkLoadInstruction N 0
      ((startPlaybackAtByte : Int) / sm.clusterSize) (List.replicate N NULL) p).1.length := by
    rw [populateLoop_length, List.length_replicate, hlen]
  constructor
  · intro l hlN
    unfold claimClusterReasonsForMarker
    simp only [hci]
    rw [replaceLoop_fst _ _ _ hl,
      populateLoop_slots supply _ _ playDirection chunkLoadInstruction hd hfirst hint N 0 _ _ p
        (by simp) hs l]
    simp only [Nat.cast_zero, sub_zero, List.getElem?_replicate]
    by_cases hc : sample.getFirstChunkIndexWithAudioData sm
        ≤ (startPlaybackAtByte : Int) / sm.clusterSize + (l : Int) * playDirection ∧
      (startPlaybackAtByte : Int) / sm.clusterSize + (l : Int) * playDirection
        < sample.getFirstChunkIndexWithNoAudioData sm
    · rw [if_pos hc, if_pos ⟨by omega, by omega, hc.1, hc.2⟩]
    · rw [if_neg hc, if_neg (fun h => hc ⟨h.2.2.1, h.2.2.2⟩), if_pos hlN]
  · intro x
    unfold claimClusterReasonsForMarker
    simp only [hci]
    rw [← populateLoop_requested supply _ _ playDirection chunkLoadInstruction hd hfirst hint
      N 0 _ (List.replicate N NULL) p hs x]
    have hreq : ∀ (old new : List Ptr) (q : Pool), (replaceLoop old new q).2.requested
        = q.requested := by
      intro old
      induction old with
      | nil => intro new q; cases new <;> simp [replaceLoop]
      | cons a rest ih =>
        intro new q
        cases new with
        | nil => simp [replaceLoop]
        | cons b t =>
          simp only [replaceLoop]
          rw [ih]
          split <;> simp [Pool.removeReasonFromLoadedSampleChunk]
    rw [hreq]

theorem claimClusterReasonsForMarker_slots_witness :
    (claimClusterReasonsForMarker pool16 (exampleSample 1 100 RawDataFormat.native)
        (fun i _ => (1000 + i).toNat) 3 [NULL, NULL, NULL] 85 1 0 ⟨fun _ => 0, 0, []⟩).1
      = [1005, 1006, NULL] ∧
    (claimClusterReasonsForMarker pool16 (exampleSample 1 100 RawDataFormat.native)
        (fun i _ => (1000 + i).toNat) 3 [NULL, NULL, NULL] 85 1 0 ⟨fun _ => 0, 0, []⟩).1[2]?
      = some (if (exampleSample 1 100 RawDataFormat.native).getFirstChunkIndexWithAudioData pool16
                  ≤ ((85 : Nat) : Int) / pool16.clusterSize + ((2 : Nat) : Int) * 1 ∧
                ((85 : Nat) : Int) / pool16.clusterSize + ((2 : Nat) : Int) * 1
                  < (exampleSample 1 100 RawDataFormat.native).getFirstChunkIndexWithNoAudioData
                      pool16
              then (fun (i : Int) (_ : Nat) => (1000 + i).toNat)
                (((85 : Nat) : Int) / pool16.clusterSize + ((2 : Nat) : Int) * 1) 0
              else NULL) :=
  ⟨by decide,
   (claimClusterReasonsForMarker_slots pool16 (exampleSample 1 100 RawDataFormat.native)
      (fun i _ => (1000 + i).toNat) 3 [NULL, NULL, NULL] 85 1 0 ⟨fun _ => 0, 0, []⟩
      (by decide) rfl (by decide) (by decide) (Or.inl rfl) (by decide)).1 2 (by decide)⟩

theorem unassignLoop_false_fst (window : List Ptr) (p : Pool) :
    (unassignLoop false window p).1 = List.replicate window.length NULL := by
  induction window generalizing p with
  | nil => simp [unassignLoop]
  | cons a rest ih =>
    simp only [unassignLoop]
    split
    · simp [ih, List.replicate_succ]
    · next h =>
      have ha : a = NULL := by simpa using h
      simp [ih, List.replicate_succ, ha]

theorem unassignLoop_reasons (beingDestructed : Bool) (window : List Ptr) (p : Pool) (c : Ptr)
    (hc : c ≠ NULL) :
    (unassignLoop beingDestructed window p).2.reasons c = p.reasons c - window.count c := by
  induction window generalizing p with
  | nil => simp [unassignLoop]
  | cons a rest ih =>
    simp only [unassignLoop]
    rw [List.count_cons]
    split
    · simp only []
      rw [ih]
      by_cases hac : a = c
      · subst hac
        simp [Pool.removeReasonFromLoadedSampleChunk]; omega
      · have hca : c ≠ a := fun e => hac e.symm
        simp [hac, Pool.removeReasonFromLoadedSampleChunk, Function.update_noteq hca]
    · next h =>
      have ha : a = NULL := by simpa using h
      have : ¬ (NULL = c) := fun e => hc e.symm
      simp only []
      rw [ih]
      simp [ha, this]

/-- C10: with acquire adding one reason to the chunk it returns and release
taking one off, if each chunk's reason count is what other holders contribute
plus the number of window slots that reference it, then the same holds after
`claimClusterReasonsForMarker`, also for chunks in both the old and the new
window; and `unassignAllClusterReasons(false)` empties every slot and leaves
each chunk with the other holders' reasons only. -/
theorem window_reasons_balanced (sm : SampleManager) (sample : Sample)
    (supply : Int → Nat → Ptr) (N : Nat) (h : SampleHolder) (startPlaybackAtByte : Nat)
    (playDirection : Int) (chunkLoadInstruction : Nat) (p : Pool) (others : Ptr → Int)
    (hlen : h.loadedSampleChunksForStart.length = N)
    (hinv : ∀ c, c ≠ NULL →
      p.reasons c = others c + (h.loadedSampleChunksForStart.count c : Int)) :
    (∀ c, c ≠ NULL →
      (claimClusterReasonsForMarker sm sample supply N h.loadedSampleChunksForStart
          startPlaybackAtByte playDirection chunkLoadInstruction p).2.reasons c
        = others c +
          ((claimClusterReasonsForMarker sm sample supply N h.loadedSampleChunksForStart
            startPlaybackAtByte playDirection chunkLoadInstruction p).1.count c : Int)) ∧
    (h.unassignAllClusterReasons false p).1.loadedSampleChunksForStart
      = List.replicate N NULL ∧
    (∀ c, c ≠ NULL → (h.unassignAllClusterReasons false p).2.reasons c = others c) := by
  refine ⟨?_, ?_, ?_⟩
  · intro c hc
    have hl : h.loadedSampleChunksForStart.length
        = (populateLoop supply (sample.getFirstChunkIndexWithAudioData sm)
          (sample.getFirstChunkIndexWithNoAudioData sm) playDirection chunkLoadInstruction N 0
          (wrapI32 (wrapU32 startPlaybackAtByte >>> sm.clusterSizeMagnitude))
          (List.replicate N NULL) p).1.length := by
      rw [populateLoop_length, List.length_replicate, hlen]
    have hpop := populateLoop_reasons supply (sample.getFirstChunkIndexWithAudioData sm)
      (sample.getFirstChunkIndexWithNoAudioData sm) playDirection chunkLoadInstruction c hc N 0
      (wrapI32 (wrapU32 startPlaybackAtByte >>> sm.clusterSizeMagnitude))
      (List.replicate N NULL) p (by simp)
      (by
        intro j _
        rw [List.getElem?_replicate]
        by_cases hj : j < N
        · exact Or.inl (if_pos hj)
        · exact Or.inr (if_neg hj))
    have hz : (List.replicate N NULL).count c = 0 := by
      rw [List.count_replicate]
      have : ¬ (NULL = c) := fun e => hc e.symm
      simp [this]
    rw [hz] at hpop
    unfold claimClusterReasonsForMarker
    simp only []
    rw [replaceLoop_reasons _ _ _ hl c hc, replaceLoop_fst _ _ _ hl]
    have := hinv c hc
    push_cast at hpop
    omega
  · unfold SampleHolder.unassignAllClusterReasons
    simp only []
    rw [unassignLoop_false_fst, hlen]
  · intro c hc
    unfold SampleHolder.unassignAllClusterReasons
    simp only []
    rw [unassignLoop_reasons _ _ _ _ hc, hinv c hc]
    omega

theorem window_reasons_balanced_witness :
    (∀ c, c ≠ NULL →
      (claimClusterReasonsForMarker pool16 (exampleSample 1 100 RawDataFormat.native)
          (fun i _ => (1000 + i).toNat) 3 exampleHolder.loadedSampleChunksForStart
          70 1 0 examplePool).2.reasons c
        = (fun _ => (0 : Int)) c +
          ((claimClusterReasonsForMarker pool16 (exampleSample 1 100 RawDataFormat.native)
            (fun i _ => (1000 + i).toNat) 3 exampleHolder.loadedSampleChunksForStart
            70 1 0 examplePool).1.count c : Int)) ∧
    (exampleHolder.unassignAllClusterReasons false examplePool).1.loadedSampleChunksForStart
      = List.replicate 3 NULL ∧
    (∀ c, c ≠ NULL →
      (exampleHolder.unassignAllClusterReasons false examplePool).2.reasons c
        = (fun _ => (0 : Int)) c) :=
  window_reasons_balanced pool16 (exampleSample 1 100 RawDataFormat.native)
    (fun i _ => (1000 + i).toNat) 3 exampleHolder 70 1 0 examplePool (fun _ => 0) rfl
    (by
      intro c hc
      by_cases h5 : c = 1005
      · subst h5; decide
      · by_cases h6 : c = 1006
        · subst h6; decide
        · have e5 : ¬ (1005 = c) := fun e => h5 e.symm
          have e6 : ¬ (1006 = c) := fun e => h6 e.symm
          have en : ¬ (NULL = c) := fun e => hc e.symm
          simp [examplePool, exampleHolder, h5, h6, e5, e6, List.count_cons, en])

/-! ## The 24-bit conversion loop -/

theorem swapLoop_pos_ge (e : Int) (s : ConvState) : e ≤ (swapLoop e s).pos := by
  induction s using swapLoop.induct e with
  | case1 s h ih => rw [swapLoop, if_pos h]; exact ih
  | case2 s h => rw [swapLoop, if_neg h]; omega

theorem swapLoop_quantum_advances (endPos : Int) (s : ConvState)
    (h : ¬ (swapLoop (quantumEnd endPos s.pos) s).pos ≥ endPos) :
    s.pos + 1024 ≤ (swapLoop (quantumEnd endPos s.pos) s).pos := by
  have h1 := swapLoop_pos_ge (quantumEnd endPos s.pos) s
  by_cases hq : s.pos + 1024 > endPos
  · rw [quantumEnd, if_pos hq] at h1 h
    omega
  · rw [quantumEnd, if_neg hq] at h1 ⊢
    exact h1

theorem swapLoop_of_lt (e : Int) (s : ConvState) (h : s.pos < e) :
    swapLoop e s = swapLoop e
      { s with data := swapGroup s.data s.pos, pos := s.pos + 3,
               converted := s.converted ++ [s.pos] } := by
  rw [swapLoop, if_pos h]

theorem swapLoop_of_not_lt (e : Int) (s : ConvState) (h : ¬ s.pos < e) : swapLoop e s = s := by
  rw [swapLoop, if_neg h]

theorem swapLoop_routineCalls (e : Int) (s : ConvState) (n : Nat) :
    swapLoop e { s with routineCalls := n } = { swapLoop e s with routineCalls := n } := by
  induction s using swapLoop.induct e with
  | case1 s h ih =>
    rw [swapLoop_of_lt e s h, swapLoop_of_lt e { s with routineCalls := n } h]
    exact ih
  | case2 s h =>
    rw [swapLoop_of_not_lt e s h, swapLoop_of_not_lt e { s with routineCalls := n } h]

theorem swapLoop_swapLoop (e1 e2 : Int) (h12 : e1 ≤ e2) (s : ConvState) :
    swapLoop e2 (swapLoop e1 s) = swapLoop e2 s := by
  induction s using swapLoop.induct e1 with
  | case1 s h ih =>
    rw [swapLoop_of_lt e1 s h, ih, swapLoop_of_lt e2 s (by omega)]
  | case2 s h =>
    rw [swapLoop_of_not_lt e1 s h]

theorem quantumEnd_le (endPos pos : Int) : quantumEnd endPos pos ≤ endPos := by
  unfold quantumEnd; split <;> omega

theorem swapQuanta_eq_swapLoop (endPos : Int) (s : ConvState) :
    ∃ n, swapQuanta endPos s = { swapLoop endPos s with routineCalls := n } := by
  induction s using swapQuanta.induct endPos with
  | case1 s h =>
    refine ⟨(swapLoop (quantumEnd endPos s.pos) s).routineCalls, ?_⟩
    rw [swapQuanta, dif_pos h, ← swapLoop_swapLoop _ _ (quantumEnd_le endPos s.pos) s,
      swapLoop_of_not_lt endPos _ (by omega)]
  | case2 s h ih =>
    obtain ⟨n, hn⟩ := ih
    refine ⟨n, ?_⟩
    rw [swapQuanta, dif_neg h, hn, swapLoop_routineCalls,
      swapLoop_swapLoop _ _ (quantumEnd_le endPos s.pos) s]

theorem swapQuanta_data (endPos : Int) (s : ConvState) :
    (swapQuanta endPos s).data = (swapLoop endPos s).data := by
  obtain ⟨n, hn⟩ := swapQuanta_eq_swapLoop endPos s
  rw [hn]

theorem swapQuanta_converted (endPos : Int) (s : ConvState) :
    (swapQuanta endPos s).converted = (swapLoop endPos s).converted := by
  obtain ⟨n, hn⟩ := swapQuanta_eq_swapLoop endPos s
  rw [hn]

theorem swapLoop_data (e : Int) (s : ConvState) (i : Int) :
    (swapLoop e s).data i = swappedRange s.data s.pos e i := by
  induction s using swapLoop.induct e with
  | case1 s h ih =>
    rw [swapLoop_of_lt e s h, ih]
    simp only [swappedRange, swapGroup, Function.update_apply]
    split_ifs <;> first | rfl | omega | (congr 1; omega)
  | case2 s h =>
    rw [swapLoop_of_not_lt e s h]
    unfold swappedRange
    rw [if_neg]
    omega

theorem swappedRange_involutive (data : Int → Nat) (p e : Int) (i : Int) :
    swappedRange (swappedRange data p e) p e i = data i := by
  simp only [swappedRange]
  split_ifs <;> first | rfl | omega | (congr 1; omega)

theorem swapLoop_converted (e : Int) (s : ConvState) (off : Int) :
    off ∈ (swapLoop e s).converted ↔
      off ∈ s.converted ∨ (s.pos ≤ off ∧ off < e ∧ (off - s.pos) % 3 = 0) := by
  induction s using swapLoop.induct e with
  | case1 s h ih =>
    rw [swapLoop_of_lt e s h, ih]
    simp only [List.mem_append, List.mem_singleton]
    constructor
    · rintro ((h1 | h1) | h1)
      · exact Or.inl h1
      · right; omega
      · right; omega
    · rintro (h1 | h1)
      · exact Or.inl (Or.inl h1)
      · by_cases hp : off = s.pos
        · exact Or.inl (Or.inr hp)
        · right; omega
  | case2 s h =>
    rw [swapLoop_of_not_lt e s h]
    constructor
    · exact Or.inl
    · rintro (h1 | h1)
      · exact h1
      · omega

/-! ## `convertDataIfNecessary` on the 3-byte swapped format -/

theorem convert_of_start_zero (sm : SampleManager) (sample : Sample) (c : Cluster)
    (h0 : sample.audioDataStartPosBytes = 0) :
    c.convertDataIfNecessary sm sample = ⟨c, 0, []⟩ := by
  unfold Cluster.convertDataIfNecessary
  rw [if_pos h0]

theorem convert_of_native (sm : SampleManager) (sample : Sample) (c : Cluster)
    (hf : sample.rawDataFormat = RawDataFormat.native) :
    c.convertDataIfNecessary sm sample = ⟨c, 0, []⟩ := by
  unfold Cluster.convertDataIfNecessary
  split
  · rfl
  · rw [if_neg (by simp [hf])]

theorem convert_chunkIndex (sm : SampleManager) (sample : Sample) (c : Cluster) :
    (c.convertDataIfNecessary sm sample).cluster.chunkIndex = c.chunkIndex := by
  unfold Cluster.convertDataIfNecessary
  dsimp only
  split_ifs <;> rfl

theorem convert_before_start_chunk (sm : SampleManager) (sample : Sample) (c : Cluster)
    (hk : c.chunkIndex < wrapI32 sample.audioDataStartPosBytes >>> sm.clusterSizeMagnitude) :
    (c.convertDataIfNecessary sm sample).cluster.data = c.data ∧
      (c.convertDataIfNecessary sm sample).converted = [] := by
  unfold Cluster.convertDataIfNecessary
  dsimp only
  split_ifs <;> exact ⟨rfl, rfl⟩

theorem convert24_data (sm : SampleManager) (sample : Sample) (c : Cluster)
    (h0 : sample.audioDataStartPosBytes ≠ 0)
    (hf : sample.rawDataFormat = RawDataFormat.endiannessWrong24)
    (hk : ¬ c.chunkIndex < wrapI32 sample.audioDataStartPosBytes >>> sm.clusterSizeMagnitude) :
    (c.convertDataIfNecessary sm sample).cluster.data =
      swappedRange c.data
        (startPos24 sm sample c.chunkIndex (wrapI32 sample.audioDataStartPosBytes)
          (wrapI32 sample.audioDataStartPosBytes >>> sm.clusterSizeMagnitude))
        (endPosOf sm sample c.chunkIndex 2) := by
  unfold Cluster.convertDataIfNecessary
  dsimp only
  rw [if_neg h0, if_pos (by simp [hf]), if_neg hk, if_pos hf]
  funext i
  dsimp only
  rw [swapQuanta_data, swapLoop_data]

theorem convert24_converted (sm : SampleManager) (sample : Sample) (c : Cluster)
    (h0 : sample.audioDataStartPosBytes ≠ 0)
    (hf : sample.rawDataFormat = RawDataFormat.endiannessWrong24)
    (hk : ¬ c.chunkIndex < wrapI32 sample.audioDataStartPosBytes >>> sm.clusterSizeMagnitude)
    (off : Int) :
    off ∈ (c.convertDataIfNecessary sm sample).converted ↔
      startPos24 sm sample c.chunkIndex (wrapI32 sample.audioDataStartPosBytes)
          (wrapI32 sample.audioDataStartPosBytes >>> sm.clusterSizeMagnitude) ≤ off ∧
        off < endPosOf sm sample c.chunkIndex 2 ∧
        (off - startPos24 sm sample c.chunkIndex (wrapI32 sample.audioDataStartPosBytes)
          (wrapI32 sample.audioDataStartPosBytes >>> sm.clusterSizeMagnitude)) % 3 = 0 := by
  unfold Cluster.convertDataIfNecessary
  dsimp only
  rw [if_neg h0, if_pos (by simp [hf]), if_neg hk, if_pos hf]
  dsimp only
  rw [swapQuanta_converted, swapLoop_converted]
  simp

theorem convert_twice_data (sm : SampleManager) (sample : Sample) (c : Cluster)
    (hf : sample.rawDataFormat ≠ RawDataFormat.otherNonNative) :
    ((c.convertDataIfNecessary sm sample).cluster.convertDataIfNecessary sm sample).cluster.data
      = c.data := by
  by_cases h0 : sample.audioDataStartPosBytes = 0
  · rw [convert_of_start_zero sm sample c h0, convert_of_start_zero sm sample c h0]
  · by_cases hn : sample.rawDataFormat = RawDataFormat.native
    · rw [convert_of_native sm sample c hn, convert_of_native sm sample c hn]
    · have hf24 : sample.rawDataFormat = RawDataFormat.endiannessWrong24 := by
        cases hfm : sample.rawDataFormat <;> simp_all
      by_cases hk : c.chunkIndex
          < wrapI32 sample.audioDataStartPosBytes >>> sm.clusterSizeMagnitude
      · have hk2 : (c.convertDataIfNecessary sm sample).cluster.chunkIndex
            < wrapI32 sample.audioDataStartPosBytes >>> sm.clusterSizeMagnitude := by
          rw [convert_chunkIndex]; exact hk
        rw [(convert_before_start_chunk sm sample _ hk2).1,
          (convert_before_start_chunk sm sample c hk).1]
      · have hk2 : ¬ (c.convertDataIfNecessary sm sample).cluster.chunkIndex
            < wrapI32 sample.audioDataStartPosBytes >>> sm.clusterSizeMagnitude := by
          rw [convert_chunkIndex]; exact hk
        rw [convert24_data sm sample _ h0 hf24 hk2, convert_chunkIndex,
          convert24_data sm sample c h0 hf24 hk]
        funext i
        exact swappedRange_involutive _ _ _ i

/-! ## Pointer arithmetic of the conversion, for a power-of-two chunk size -/

theorem clusterSize_pos (sm : SampleManager) (hsm : sm.WellFormed) :
    (0 : Int) < (sm.clusterSize : Int) := by
  rw [hsm]
  exact_mod_cast Nat.pos_pow_of_pos _ (by decide)

theorem andMask_nonneg (x : Int) (m : Nat) : 0 ≤ andMask x m := by
  unfold andMask
  exact Int.ofNat_nonneg _

theorem andMask_le (x : Int) (m : Nat) : andMask x m ≤ m := by
  unfold andMask
  exact_mod_cast Nat.and_le_right

theorem andMask_clusterSize (sm : SampleManager) (hsm : sm.WellFormed) (x : Int)
    (hx0 : 0 ≤ x) (hx : x < 4294967296) :
    andMask x (sm.clusterSize - 1) = x % (sm.clusterSize : Int) := by
  unfold andMask
  rw [wrapU32_of_fits x hx0 hx, hsm, Nat.and_pow_two_sub_one_eq_mod]
  rw [Int.natCast_mod, Int.toNat_of_nonneg hx0]

theorem startChunk_eq_div (sm : SampleManager) (hsm : sm.WellFormed) (start : Nat)
    (hfit : start < 2147483648) :
    wrapI32 (start : Int) >>> sm.clusterSizeMagnitude = (start : Int) / (sm.clusterSize : Int) := by
  rw [wrapI32_of_fits _ (by omega) (by omega), Int.shiftRight_eq_div_pow, ← hsm]

theorem mul_clusterSize_ge (C a b : Int) (hC : 0 < C) (h : a < b) : a * C + C ≤ b * C := by
  have h1 : (a + 1) * C ≤ b * C := Int.mul_le_mul_of_nonneg_right (by omega) (le_of_lt hC)
  have h2 : (a + 1) * C = a * C + C := by ring
  omega

theorem startPos24_spec (sm : SampleManager) (hsm : sm.WellFormed) (sample : Sample)
    (k : Int) (hfit : sample.audioDataStartPosBytes < 2147483648)
    (hk : (sample.audioDataStartPosBytes : Int) / (sm.clusterSize : Int) ≤ k)
    (hkfit : k * (sm.clusterSize : Int) < 4294967296) (off : Int) :
    (startPos24 sm sample k (wrapI32 sample.audioDataStartPosBytes)
          (wrapI32 sample.audioDataStartPosBytes >>> sm.clusterSizeMagnitude) ≤ off ∧
      (off - startPos24 sm sample k (wrapI32 sample.audioDataStartPosBytes)
          (wrapI32 sample.audioDataStartPosBytes >>> sm.clusterSizeMagnitude)) % 3 = 0) ↔
    (0 ≤ off ∧ (sample.audioDataStartPosBytes : Int) ≤ k * (sm.clusterSize : Int) + off ∧
      (k * (sm.clusterSize : Int) + off - sample.audioDataStartPosBytes) % 3 = 0) := by
  have hC := clusterSize_pos sm hsm
  have hdm := Int.emod_add_ediv (sample.audioDataStartPosBytes : Int) (sm.clusterSize : Int)
  have hm0 := Int.emod_nonneg (sample.audioDataStartPosBytes : Int) (ne_of_gt hC)
  have hm1 := Int.emod_lt_of_pos (sample.audioDataStartPosBytes : Int) hC
  have hcomm : (sm.clusterSize : Int)
      * ((sample.audioDataStartPosBytes : Int) / (sm.clusterSize : Int))
      = (sample.audioDataStartPosBytes : Int) / (sm.clusterSize : Int) * (sm.clusterSize : Int) :=
    mul_comm _ _
  rw [startChunk_eq_div sm hsm _ hfit, wrapI32_of_fits _ (by omega) (by omega)]
  unfold startPos24
  by_cases hk0 : k = (sample.audioDataStartPosBytes : Int) / (sm.clusterSize : Int)
  · rw [if_pos hk0, andMask_clusterSize sm hsm _ (by omega) (by omega)]
    subst hk0
    omega
  · rw [if_neg hk0]
    have hlt : (sample.audioDataStartPosBytes : Int) / (sm.clusterSize : Int) < k := by omega
    have hge := mul_clusterSize_ge (sm.clusterSize : Int) _ _ hC hlt
    rw [wrapU32_of_fits _ (by omega) (by omega)]
    dsimp only
    split_ifs <;> omega

theorem endPosOf_le (sm : SampleManager) (hsm : sm.WellFormed) (sample : Sample) (k : Int) :
    endPosOf sm sample k 2 ≤ (sm.clusterSize : Int) - 1 := by
  have hC := clusterSize_pos sm hsm
  unfold endPosOf
  split
  · have := andMask_le (wrapU32 ((sample.audioDataStartPosBytes : Int)
      + sample.audioDataLengthBytes)) (sm.clusterSize - 1)
    dsimp only
    omega
  · omega

theorem swapLoop_converted_head (e : Int) (s : ConvState) :
    ∃ rest, (swapLoop e s).converted = s.converted ++ rest ∧
      rest.head? = if s.pos < e then some s.pos else none := by
  induction s using swapLoop.induct e with
  | case1 s h ih =>
    obtain ⟨rest, h1, _⟩ := ih
    refine ⟨s.pos :: rest, ?_, ?_⟩
    · rw [swapLoop_of_lt e s h, h1]
      simp
    · rw [if_pos h]; rfl
  | case2 s h =>
    refine ⟨[], ?_, ?_⟩
    · rw [swapLoop_of_not_lt e s h]; simp
    · rw [if_neg h]; rfl

theorem convert24_converted_head (sm : SampleManager) (sample : Sample) (c : Cluster)
    (h0 : sample.audioDataStartPosBytes ≠ 0)
    (hf : sample.rawDataFormat = RawDataFormat.endiannessWrong24)
    (hk : ¬ c.chunkIndex < wrapI32 sample.audioDataStartPosBytes >>> sm.clusterSizeMagnitude) :
    (c.convertDataIfNecessary sm sample).converted.head? =
      if startPos24 sm sample c.chunkIndex (wrapI32 sample.audioDataStartPosBytes)
          (wrapI32 sample.audioDataStartPosBytes >>> sm.clusterSizeMagnitude)
          < endPosOf sm sample c.chunkIndex 2
      then some (startPos24 sm sample c.chunkIndex (wrapI32 sample.audioDataStartPosBytes)
          (wrapI32 sample.audioDataStartPosBytes >>> sm.clusterSizeMagnitude))
      else none := by
  unfold Cluster.convertDataIfNecessary
  dsimp only
  rw [if_neg h0, if_pos (by simp [hf]), if_neg hk, if_pos hf]
  dsimp only
  rw [swapQuanta_converted]
  obtain ⟨rest, h1, h2⟩ := swapLoop_converted_head (endPosOf sm sample c.chunkIndex 2)
    ⟨c.data, startPos24 sm sample c.chunkIndex (wrapI32 sample.audioDataStartPosBytes)
      (wrapI32 sample.audioDataStartPosBytes >>> sm.clusterSizeMagnitude), 0, []⟩
  rw [h1]
  simpa using h2

theorem convert_converted_of_not24 (sm : SampleManager) (sample : Sample) (c : Cluster)
    (h : sample.audioDataStartPosBytes = 0 ∨
      c.chunkIndex < wrapI32 sample.audioDataStartPosBytes >>> sm.clusterSizeMagnitude) :
    (c.convertDataIfNecessary sm sample).converted = [] := by
  rcases h with h | h
  · rw [convert_of_start_zero sm sample c h]
  · exact (convert_before_start_chunk sm sample c h).2

theorem convert24_converted_grid (sm : SampleManager) (hsm : sm.WellFormed) (sample : Sample)
    (c : Cluster) (hf : sample.rawDataFormat = RawDataFormat.endiannessWrong24)
    (hfit : sample.audioDataStartPosBytes < 2147483648)
    (hkfit : c.chunkIndex * (sm.clusterSize : Int) < 4294967296) (off : Int)
    (hoff : off ∈ (c.convertDataIfNecessary sm sample).converted) :
    0 ≤ off ∧ off < (sm.clusterSize : Int) ∧
      (c.chunkIndex * (sm.clusterSize : Int) + off - sample.audioDataStartPosBytes) % 3 = 0 := by
  by_cases h0 : sample.audioDataStartPosBytes = 0
  · rw [convert_converted_of_not24 sm sample c (Or.inl h0)] at hoff
    simp at hoff
  · by_cases hk : c.chunkIndex
        < wrapI32 sample.audioDataStartPosBytes >>> sm.clusterSizeMagnitude
    · rw [convert_converted_of_not24 sm sample c (Or.inr hk)] at hoff
      simp at hoff
    · rw [convert24_converted sm sample c h0 hf hk off] at hoff
      have hk2 := hk
      rw [startChunk_eq_div sm hsm _ hfit] at hk2
      have hspec := (startPos24_spec sm hsm sample c.chunkIndex hfit (by omega) hkfit off).mp
        ⟨hoff.1, hoff.2.2⟩
      have hend := endPosOf_le sm hsm sample c.chunkIndex
      exact ⟨hspec.1, by omega, hspec.2.2⟩

/-! ## Claims on `convertDataIfNecessary` -/

/-- C1 fails on the code when the audio data ends on a chunk boundary. With
chunks of 32768 bytes and 3-byte swapped audio data occupying bytes 44 to 32767
(10908 groups), chunk 0 is the start chunk and the last chunk with audio data;
the end pointer is computed as offset 0, and the call leaves every byte of the
buffer as it was, having swapped no group. -/
theorem convert24_chunk_aligned_end_unconverted (data : Int → Nat) :
    ((exampleCluster ClusterType.sample 0 data).convertDataIfNecessary pool32k
        (exampleSample 44 32724 RawDataFormat.endiannessWrong24)).cluster.data = data ∧
    ((exampleCluster ClusterType.sample 0 data).convertDataIfNecessary pool32k
        (exampleSample 44 32724 RawDataFormat.endiannessWrong24)).converted = [] ∧
    endPosOf pool32k (exampleSample 44 32724 RawDataFormat.endiannessWrong24) 0 2 = 0 := by
  have h0 : (exampleSample 44 32724 RawDataFormat.endiannessWrong24).audioDataStartPosBytes ≠ 0 := by
    decide
  have hc : (exampleCluster ClusterType.sample 0 data).chunkIndex = 0 := rfl
  have hk : ¬ (exampleCluster ClusterType.sample 0 data).chunkIndex
      < wrapI32 (exampleSample 44 32724 RawDataFormat.endiannessWrong24).audioDataStartPosBytes
        >>> pool32k.clusterSizeMagnitude := by
    rw [hc]; decide
  have hp : startPos24 pool32k (exampleSample 44 32724 RawDataFormat.endiannessWrong24) 0
      (wrapI32 (exampleSample 44 32724 RawDataFormat.endiannessWrong24).audioDataStartPosBytes)
      (wrapI32 (exampleSample 44 32724 RawDataFormat.endiannessWrong24).audioDataStartPosBytes
        >>> pool32k.clusterSizeMagnitude) = 44 := by decide
  have he : endPosOf pool32k (exampleSample 44 32724 RawDataFormat.endiannessWrong24) 0 2
      = 0 := by decide
  refine ⟨?_, ?_, he⟩
  · rw [convert24_data _ _ _ h0 rfl hk, hc, hp, he]
    funext i
    unfold swappedRange
    rw [if_neg (by omega)]
    rfl
  · have hh := convert24_converted_head pool32k
      (exampleSample 44 32724 RawDataFormat.endiannessWrong24)
      (exampleCluster ClusterType.sample 0 data) h0 rfl hk
    rw [hc, hp, he, if_neg (by decide)] at hh
    exact List.head?_eq_none_iff.mp hh

/-- C2, as stated, fails: with chunks of 32768 bytes and audio data from byte
100 on, the group that starts at byte 32767 lies partly within chunk 0 and
within the audio data, yet converting chunk 0 does not swap it. -/
theorem convert24_straddling_group_counterexample :
    ¬ specSwapsGroupsTouchingChunk pool32k
        (exampleSample 100 196608 RawDataFormat.endiannessWrong24)
        (exampleCluster ClusterType.sample 0 rampData) := by
  intro h
  have hmem := (h 32767).mpr (by decide)
  rw [convert24_converted _ _ _ (by decide) rfl (by decide)] at hmem
  exact absurd hmem.2.1 (by decide)

/-- C2, amended: for a chunk `k` from the start chunk to the last chunk with
audio data (the audio end not being a multiple of the chunk size when `k` is
that last chunk), `convertDataIfNecessary` swaps exactly the 3-byte groups of
the audio stream that start inside chunk `k` before the audio end and, when `k`
is not the last chunk, lie entirely inside chunk `k`: a group that straddles
the boundary to chunk `k + 1` is not swapped. -/
theorem convert24_swaps_exactly (sm : SampleManager) (sample : Sample) (c : Cluster)
    (hsm : sm.WellFormed) (hf : sample.rawDataFormat = RawDataFormat.endiannessWrong24)
    (h0 : sample.audioDataStartPosBytes ≠ 0)
    (hfit : sample.audioDataStartPosBytes < 2147483648)
    (hfit2 : sample.audioDataStartPosBytes + sample.audioDataLengthBytes < 4294967296)
    (hk1 : sample.getFirstChunkIndexWithAudioData sm ≤ c.chunkIndex)
    (hk2 : c.chunkIndex ≤ sample.getFirstChunkIndexWithNoAudioData sm - 1)
    (hend : c.chunkIndex = sample.getFirstChunkIndexWithNoAudioData sm - 1 →
      ((sample.audioDataStartPosBytes : Int) + sample.audioDataLengthBytes)
        % (sm.clusterSize : Int) ≠ 0)
    (off : Int) :
    off ∈ (c.convertDataIfNecessary sm sample).converted ↔
      0 ≤ off ∧
      (c.chunkIndex * (sm.clusterSize : Int) + off - sample.audioDataStartPosBytes) % 3 = 0 ∧
      (sample.audioDataStartPosBytes : Int) ≤ c.chunkIndex * (sm.clusterSize : Int) + off ∧
      c.chunkIndex * (sm.clusterSize : Int) + off
        < (sample.audioDataStartPosBytes : Int) + sample.audioDataLengthBytes ∧
      (c.chunkIndex < sample.getFirstChunkIndexWithNoAudioData sm - 1 →
        off + 2 < (sm.clusterSize : Int)) := by
  have hC := clusterSize_pos sm hsm
  unfold Sample.getFirstChunkIndexWithAudioData at hk1
  unfold Sample.getFirstChunkIndexWithNoAudioData at hk2 hend ⊢
  rw [Int.shiftRight_eq_div_pow, ← hsm] at hk1 hk2 hend ⊢
  have hE1 := Int.emod_add_ediv ((sample.audioDataStartPosBytes : Int)
    + sample.audioDataLengthBytes - 1) (sm.clusterSize : Int)
  have hE2 := Int.emod_nonneg ((sample.audioDataStartPosBytes : Int)
    + sample.audioDataLengthBytes - 1) (ne_of_gt hC)
  have hE3 := Int.emod_lt_of_pos ((sample.audioDataStartPosBytes : Int)
    + sample.audioDataLengthBytes - 1) hC
  have hM1 := Int.emod_add_ediv ((sample.audioDataStartPosBytes : Int)
    + sample.audioDataLengthBytes) (sm.clusterSize : Int)
  have hM2 := Int.emod_nonneg ((sample.audioDataStartPosBytes : Int)
    + sample.audioDataLengthBytes) (ne_of_gt hC)
  have hM3 := Int.emod_lt_of_pos ((sample.audioDataStartPosBytes : Int)
    + sample.audioDataLengthBytes) hC
  have hcomm : ∀ q : Int, (sm.clusterSize : Int) * q = q * (sm.clusterSize : Int) :=
    fun q => mul_comm _ _
  rw [hcomm] at hE1 hM1
  have hkC : c.chunkIndex * (sm.clusterSize : Int)
      ≤ (((sample.audioDataStartPosBytes : Int) + sample.audioDataLengthBytes - 1)
          / (sm.clusterSize : Int)) * (sm.clusterSize : Int) :=
    Int.mul_le_mul_of_nonneg_right (by omega) (le_of_lt hC)
  have hkfit : c.chunkIndex * (sm.clusterSize : Int) < 4294967296 := by omega
  have hk : ¬ c.chunkIndex
      < wrapI32 sample.audioDataStartPosBytes >>> sm.clusterSizeMagnitude := by
    rw [startChunk_eq_div sm hsm _ hfit]; omega
  rw [convert24_converted sm sample c h0 hf hk off]
  have hspec := startPos24_spec sm hsm sample c.chunkIndex hfit hk1 hkfit off
  have hendPos : endPosOf sm sample c.chunkIndex 2 =
      if c.chunkIndex = (((sample.audioDataStartPosBytes : Int)
          + sample.audioDataLengthBytes - 1) / (sm.clusterSize : Int)) + 1 - 1
      then ((sample.audioDataStartPosBytes : Int) + sample.audioDataLengthBytes)
        % (sm.clusterSize : Int)
      else (sm.clusterSize : Int) - 2 := by
    unfold endPosOf Sample.getFirstChunkIndexWithNoAudioData
    rw [Int.shiftRight_eq_div_pow, ← hsm]
    dsimp only
    rw [wrapU32_of_fits _ (by omega) (by omega),
      andMask_clusterSize sm hsm _ (by omega) (by omega)]
  rw [hendPos]
  by_cases hlast : c.chunkIndex = (((sample.audioDataStartPosBytes : Int)
      + sample.audioDataLengthBytes - 1) / (sm.clusterSize : Int)) + 1 - 1
  · rw [if_pos hlast]
    have hne := hend hlast
    have hq : ((sample.audioDataStartPosBytes : Int) + sample.audioDataLengthBytes)
        / (sm.clusterSize : Int) * (sm.clusterSize : Int)
        = c.chunkIndex * (sm.clusterSize : Int) := by
      have hq1 : ((sample.audioDataStartPosBytes : Int) + sample.audioDataLengthBytes)
          / (sm.clusterSize : Int) = c.chunkIndex := by
        rw [hlast]
        have h1 : ((sample.audioDataStartPosBytes : Int) + sample.audioDataLengthBytes)
            / (sm.clusterSize : Int)
            ≤ ((sample.audioDataStartPosBytes : Int) + sample.audioDataLengthBytes - 1)
              / (sm.clusterSize : Int) := by
          by_contra hcon
          have := mul_clusterSize_ge (sm.clusterSize : Int) _ _ hC (not_le.mp hcon)
          omega
        have h2 : ((sample.audioDataStartPosBytes : Int) + sample.audioDataLengthBytes - 1)
            / (sm.clusterSize : Int)
            ≤ ((sample.audioDataStartPosBytes : Int) + sample.audioDataLengthBytes)
              / (sm.clusterSize : Int) :=
          Int.ediv_le_ediv hC (by omega)
        omega
      rw [hq1]
    constructor
    · rintro ⟨a1, a2, a3⟩
      have := hspec.mp ⟨a1, a3⟩
      refine ⟨this.1, this.2.2, this.2.1, by omega, fun hlt => by omega⟩
    · rintro ⟨b1, b2, b3, b4, _⟩
      have := hspec.mpr ⟨b1, b3, b2⟩
      exact ⟨this.1, by omega, this.2⟩
  · rw [if_neg hlast]
    have hlt : c.chunkIndex < ((sample.audioDataStartPosBytes : Int)
        + sample.audioDataLengthBytes - 1) / (sm.clusterSize : Int) := by omega
    have hge := mul_clusterSize_ge (sm.clusterSize : Int) _ _ hC hlt
    constructor
    · rintro ⟨a1, a2, a3⟩
      have := hspec.mp ⟨a1, a3⟩
      refine ⟨this.1, this.2.2, this.2.1, by omega, fun _ => by omega⟩
    · rintro ⟨b1, b2, b3, b4, b5⟩
      have := hspec.mpr ⟨b1, b3, b2⟩
      exact ⟨this.1, by have := b5 (by omega); omega, this.2⟩

theorem convert24_swaps_exactly_witness :
    ((32764 : Int) ∈ ((exampleCluster ClusterType.sample 0 rampData).convertDataIfNecessary
        pool32k (exampleSample 100 196608 RawDataFormat.endiannessWrong24)).converted) ∧
    ((32767 : Int) ∉ ((exampleCluster ClusterType.sample 0 rampData).convertDataIfNecessary
        pool32k (exampleSample 100 196608 RawDataFormat.endiannessWrong24)).converted) := by
  have h := convert24_swaps_exactly pool32k
    (exampleSample 100 196608 RawDataFormat.endiannessWrong24)
    (exampleCluster ClusterType.sample 0 rampData) (by decide) rfl (by decide) (by decide)
    (by decide) (by decide) (by decide) (by decide)
  exact ⟨(h 32764).mpr (by decide), fun hm => absurd ((h 32767).mp hm).2.2.2.2 (by decide)⟩

/-- C3: in the 3-byte swapped format, for a chunk `k` after the start chunk,
the first group that `convertDataIfNecessary` swaps (when it swaps any) begins
at in-chunk offset `(3 - ((k * C - audio_data_start) mod 3)) mod 3`, no group
is swapped below that offset, and that offset is the first 3-byte group
boundary of the audio stream at or after the chunk's first byte; and for any
two chunks with different indices, no absolute byte position of a group
swapped by one is a byte of a group swapped by the other. -/
theorem convert24_resumes_on_group_boundary (sm : SampleManager) (sample : Sample)
    (c : Cluster) (hsm : sm.WellFormed)
    (hf : sample.rawDataFormat = RawDataFormat.endiannessWrong24)
    (hfit : sample.audioDataStartPosBytes < 2147483648)
    (hk : sample.getFirstChunkIndexWithAudioData sm < c.chunkIndex)
    (hkfit : c.chunkIndex * (sm.clusterSize : Int) < 4294967296) :
    ((c.convertDataIfNecessary sm sample).converted ≠ [] →
      (c.convertDataIfNecessary sm sample).converted.head? =
        some ((3 - (c.chunkIndex * (sm.clusterSize : Int)
          - sample.audioDataStartPosBytes) % 3) % 3)) ∧
    (∀ off ∈ (c.convertDataIfNecessary sm sample).converted,
      (3 - (c.chunkIndex * (sm.clusterSize : Int)
          - sample.audioDataStartPosBytes) % 3) % 3 ≤ off) ∧
    (∀ off : Int,
      (0 ≤ off ∧ (c.chunkIndex * (sm.clusterSize : Int) + off
          - sample.audioDataStartPosBytes) % 3 = 0) →
      (3 - (c.chunkIndex * (sm.clusterSize : Int)
          - sample.audioDataStartPosBytes) % 3) % 3 ≤ off) ∧
    (c.chunkIndex * (sm.clusterSize : Int) + (3 - (c.chunkIndex * (sm.clusterSize : Int)
          - sample.audioDataStartPosBytes) % 3) % 3 - sample.audioDataStartPosBytes) % 3 = 0 ∧
    (∀ c1 c2 : Cluster, c1.chunkIndex ≠ c2.chunkIndex →
      c1.chunkIndex * (sm.clusterSize : Int) < 4294967296 →
      c2.chunkIndex * (sm.clusterSize : Int) < 4294967296 →
      ∀ off1 ∈ (c1.convertDataIfNecessary sm sample).converted,
      ∀ off2 ∈ (c2.convertDataIfNecessary sm sample).converted,
      ∀ a b : Int, 0 ≤ a → a ≤ 2 → 0 ≤ b → b ≤ 2 →
        c1.chunkIndex * (sm.clusterSize : Int) + off1 + a
          ≠ c2.chunkIndex * (sm.clusterSize : Int) + off2 + b) := by
  have hC := clusterSize_pos sm hsm
  have hk1 := hk
  unfold Sample.getFirstChunkIndexWithAudioData at hk1
  rw [Int.shiftRight_eq_div_pow, ← hsm] at hk1
  have hnk : ¬ c.chunkIndex
      < wrapI32 sample.audioDataStartPosBytes >>> sm.clusterSizeMagnitude := by
    rw [startChunk_eq_div sm hsm _ hfit]; omega
  have hdm := Int.emod_add_ediv (sample.audioDataStartPosBytes : Int) (sm.clusterSize : Int)
  have hm0 := Int.emod_nonneg (sample.audioDataStartPosBytes : Int) (ne_of_gt hC)
  have hm1 := Int.emod_lt_of_pos (sample.audioDataStartPosBytes : Int) hC
  have hcomm : (sm.clusterSize : Int)
      * ((sample.audioDataStartPosBytes : Int) / (sm.clusterSize : Int))
      = (sample.audioDataStartPosBytes : Int) / (sm.clusterSize : Int) * (sm.clusterSize : Int) :=
    mul_comm _ _
  have hge := mul_clusterSize_ge (sm.clusterSize : Int) _ _ hC hk1
  have hpos : startPos24 sm sample c.chunkIndex (wrapI32 sample.audioDataStartPosBytes)
      (wrapI32 sample.audioDataStartPosBytes >>> sm.clusterSizeMagnitude)
      = (3 - (c.chunkIndex * (sm.clusterSize : Int)
          - sample.audioDataStartPosBytes) % 3) % 3 := by
    rw [startChunk_eq_div sm hsm _ hfit]
    unfold startPos24
    rw [if_neg (by omega), wrapU32_of_fits _ (by omega) (by omega)]
    dsimp only
    split_ifs <;> omega
  refine ⟨?_, ?_, ?_, ?_, ?_⟩
  · intro hne
    by_cases h0 : sample.audioDataStartPosBytes = 0
    · exact absurd (convert_converted_of_not24 sm sample c (Or.inl h0)) hne
    · have hh := convert24_converted_head sm sample c h0 hf hnk
      rw [hpos] at hh
      rw [hh]
      split
      · rfl
      · next hlt =>
        rw [if_neg hlt] at hh
        exact absurd (List.head?_eq_none_iff.mp hh) hne
  · intro off hoff
    by_cases h0 : sample.audioDataStartPosBytes = 0
    · rw [convert_converted_of_not24 sm sample c (Or.inl h0)] at hoff
      simp at hoff
    · rw [convert24_converted sm sample c h0 hf hnk off, hpos] at hoff
      exact hoff.1
  · rintro off ⟨h1, h2⟩
    omega
  · omega
  · intro c1 c2 hne hf1 hf2 off1 ho1 off2 ho2 a b ha0 ha2 hb0 hb2
    have g1 := convert24_converted_grid sm hsm sample c1 hf hfit hf1 off1 ho1
    have g2 := convert24_converted_grid sm hsm sample c2 hf hfit hf2 off2 ho2
    rcases lt_or_gt_of_ne hne with hlt | hgt
    · have := mul_clusterSize_ge (sm.clusterSize : Int) _ _ hC hlt
      omega
    · have := mul_clusterSize_ge (sm.clusterSize : Int) _ _ hC hgt
      omega

theorem convert24_resumes_on_group_boundary_witness :
    ((exampleCluster ClusterType.sample 1 rampData).convertDataIfNecessary pool32k
        (exampleSample 100 196608 RawDataFormat.endiannessWrong24)).converted.head? = some 2 :=
  (convert24_resumes_on_group_boundary pool32k
    (exampleSample 100 196608 RawDataFormat.endiannessWrong24)
    (exampleCluster ClusterType.sample 1 rampData) (by decide) rfl (by decide) (by decide)
    (by decide)).1
    (by
      intro hnil
      have hh := convert24_converted_head pool32k
        (exampleSample 100 196608 RawDataFormat.endiannessWrong24)
        (exampleCluster ClusterType.sample 1 rampData) (by decide) rfl (by decide)
      rw [hnil] at hh
      exact absurd hh (by decide))

/-- C4, as stated, fails: on a chunk of 3-byte swapped audio data a second call
swaps the groups back, so the buffer after two calls differs from the buffer
after one. -/
theorem convert24_twice_counterexample :
    (((exampleCluster ClusterType.sample 0 rampData).convertDataIfNecessary pool16
        (exampleSample 1 30 RawDataFormat.endiannessWrong24)).cluster.convertDataIfNecessary
          pool16 (exampleSample 1 30 RawDataFormat.endiannessWrong24)).cluster.data
      ≠ ((exampleCluster ClusterType.sample 0 rampData).convertDataIfNecessary pool16
        (exampleSample 1 30 RawDataFormat.endiannessWrong24)).cluster.data := by
  intro h
  have h1 := congrFun h 1
  rw [convert_twice_data _ _ _ (by decide),
    convert24_data _ _ _ (by decide) rfl (by decide)] at h1
  exact absurd h1 (by decide)

/-- C4, amended: `convertDataIfNecessary` has no already-converted guard. For
the native format and for the 3-byte swapped format, the buffer after two
consecutive calls is byte-identical to the buffer before the first call: the
call changes nothing in the native format, and in the 3-byte swapped format a
second call undoes the first. -/
theorem convert_twice_restores (sm : SampleManager) (sample : Sample) (c : Cluster)
    (hf : sample.rawDataFormat ≠ RawDataFormat.otherNonNative) :
    ((c.convertDataIfNecessary sm sample).cluster.convertDataIfNecessary sm sample).cluster.data
      = c.data ∧
    (sample.rawDataFormat = RawDataFormat.native →
      (c.convertDataIfNecessary sm sample).cluster.data = c.data) :=
  ⟨convert_twice_data sm sample c hf, fun hn => by rw [convert_of_native sm sample c hn]⟩

theorem convert_twice_restores_witness :
    (((exampleCluster ClusterType.sample 0 rampData).convertDataIfNecessary pool16
        (exampleSample 1 30 RawDataFormat.endiannessWrong24)).cluster.convertDataIfNecessary
          pool16 (exampleSample 1 30 RawDataFormat.endiannessWrong24)).cluster.data
      = rampData :=
  (convert_twice_restores pool16 (exampleSample 1 30 RawDataFormat.endiannessWrong24)
    (exampleCluster ClusterType.sample 0 rampData) (by decide)).1

/-! ## The playback range after `setAudioFile` -/

theorem base_setAudioFile_audioFile (w : HolderWorld) (newAudioFile : Ptr) :
    (AudioFileHolder.setAudioFile w newAudioFile).holder.audioFile = newAudioFile := by
  unfold AudioFileHolder.setAudioFile
  dsimp only
  split_ifs <;> rfl

theorem base_setAudioFile_range (w : HolderWorld) (newAudioFile : Ptr) :
    (AudioFileHolder.setAudioFile w newAudioFile).holder.startPos = w.holder.startPos ∧
    (AudioFileHolder.setAudioFile w newAudioFile).holder.endPos = w.holder.endPos ∧
    (AudioFileHolder.setAudioFile w newAudioFile).holder.waveformViewScroll
      = w.holder.waveformViewScroll ∧
    (AudioFileHolder.setAudioFile w newAudioFile).holder.waveformViewZoom
      = w.holder.waveformViewZoom := by
  unfold AudioFileHolder.setAudioFile SampleHolder.unassignAllClusterReasons
  dsimp only
  split_ifs <;> exact ⟨rfl, rfl, rfl, rfl⟩

theorem addFileReasons_fields (h : Heap) (file : Ptr) (d : Int) (x : Ptr) :
    ((h.addFileReasons file d).samples x).lengthInSamples = (h.samples x).lengthInSamples ∧
    ((h.addFileReasons file d).samples x).audioDataStartPosBytes
      = (h.samples x).audioDataStartPosBytes ∧
    ((h.addFileReasons file d).samples x).audioDataLengthBytes
      = (h.samples x).audioDataLengthBytes ∧
    ((h.addFileReasons file d).samples x).numChannels = (h.samples x).numChannels ∧
    ((h.addFileReasons file d).samples x).byteDepth = (h.samples x).byteDepth := by
  unfold Heap.addFileReasons
  by_cases hx : x = file
  · subst hx
    simp
  · simp [Function.update_noteq hx]

theorem base_setAudioFile_length (w : HolderWorld) (newAudioFile : Ptr) (x : Ptr) :
    ((AudioFileHolder.setAudioFile w newAudioFile).heap.samples x).lengthInSamples
      = (w.heap.samples x).lengthInSamples := by
  unfold AudioFileHolder.setAudioFile
  dsimp only
  split_ifs <;> simp [(addFileReasons_fields _ _ _ x).1]

theorem setZone_range (h : SampleHolder) (manuallySelected : Bool) (L : Nat) :
    (h.setZone manuallySelected L).startPos
      = (if manuallySelected then 0
         else if (if h.endPos = 0 ∨ h.endPos = 9999999 then L else h.endPos) ≤ min h.startPos L
           then 0 else min h.startPos L) ∧
    (h.setZone manuallySelected L).endPos
      = (if manuallySelected then L
         else if h.endPos = 0 ∨ h.endPos = 9999999 then L else h.endPos) := by
  unfold SampleHolder.setZone
  cases manuallySelected <;> simp

theorem setAudioFile_holder (sm : SampleManager) (supply : Int → Nat → Ptr) (N : Nat)
    (w : HolderWorld) (newSample : Ptr) (reversed manuallySelected : Bool) (instr : Nat)
    (hnew : newSample ≠ NULL) :
    (SampleHolder.setAudioFile sm supply N w newSample reversed manuallySelected
        instr).holder.startPos
      = ((AudioFileHolder.setAudioFile w newSample).holder.setZone manuallySelected
          ((w.heap.samples newSample).lengthInSamples % 4294967296)).startPos ∧
    (SampleHolder.setAudioFile sm supply N w newSample reversed manuallySelected
        instr).holder.endPos
      = ((AudioFileHolder.setAudioFile w newSample).holder.setZone manuallySelected
          ((w.heap.samples newSample).lengthInSamples % 4294967296)).endPos ∧
    (SampleHolder.setAudioFile sm supply N w newSample reversed manuallySelected
        instr).holder.audioFile = newSample ∧
    (∀ x, ((SampleHolder.setAudioFile sm supply N w newSample reversed manuallySelected
        instr).heap.samples x).lengthInSamples = (w.heap.samples x).lengthInSamples) := by
  have ha := base_setAudioFile_audioFile w newSample
  have hne : (AudioFileHolder.setAudioFile w newSample).holder.audioFile ≠ NULL := by
    rw [ha]; exact hnew
  unfold SampleHolder.setAudioFile
  dsimp only
  rw [if_pos hne]
  unfold SampleHolder.claimClusterReasons
  dsimp only
  rw [ha, base_setAudioFile_length]
  refine ⟨rfl, rfl, ?_, fun x => base_setAudioFile_length w newSample x⟩
  unfold SampleHolder.setZone
  split_ifs <;> exact ha

/-- C11: after `setAudioFile` has bound a non-null file, whatever the range
was before, whatever the length of the file and for both values of
`manuallySelected`, `0 <= startPos <= getEndPos(false) <= lengthInSamples`
holds for the bound file, so `getDurationInSamples(false)` is not negative. -/
theorem setAudioFile_range_invariant (sm : SampleManager) (supply : Int → Nat → Ptr) (N : Nat)
    (w : HolderWorld) (newSample : Ptr) (reversed manuallySelected : Bool) (instr : Nat)
    (hnew : newSample ≠ NULL) :
    (0 : Int) ≤ (SampleHolder.setAudioFile sm supply N w newSample reversed manuallySelected
        instr).holder.startPos ∧
    ((SampleHolder.setAudioFile sm supply N w newSample reversed manuallySelected
        instr).holder.startPos : Int)
      ≤ (SampleHolder.setAudioFile sm supply N w newSample reversed manuallySelected
          instr).holder.getEndPos
          ((SampleHolder.setAudioFile sm supply N w newSample reversed manuallySelected
            instr).heap.samples newSample) false ∧
    (SampleHolder.setAudioFile sm supply N w newSample reversed manuallySelected
        instr).holder.getEndPos
        ((SampleHolder.setAudioFile sm supply N w newSample reversed manuallySelected
          instr).heap.samples newSample) false
      ≤ (((SampleHolder.setAudioFile sm supply N w newSample reversed manuallySelected
          instr).heap.samples newSample).lengthInSamples : Int) ∧
    0 ≤ (SampleHolder.setAudioFile sm supply N w newSample reversed manuallySelected
        instr).holder.getDurationInSamples
        ((SampleHolder.setAudioFile sm supply N w newSample reversed manuallySelected
          instr).heap.samples newSample) false := by
  obtain ⟨h1, h2, _, h4⟩ := setAudioFile_holder sm supply N w newSample reversed
    manuallySelected instr hnew
  have hz := setZone_range (AudioFileHolder.setAudioFile w newSample).holder manuallySelected
    ((w.heap.samples newSample).lengthInSamples % 4294967296)
  have hmod : (w.heap.samples newSample).lengthInSamples % 4294967296
      ≤ (w.heap.samples newSample).lengthInSamples := Nat.mod_le _ _
  unfold SampleHolder.getDurationInSamples SampleHolder.getEndPos
  simp only [Bool.false_eq_true, if_false]
  rw [h1, h2, h4 newSample, hz.1, hz.2]
  cases manuallySelected
  · simp only [Bool.false_eq_true, if_false]
    split_ifs <;> omega
  · simp only [if_true]
    omega

theorem setAudioFile_range_invariant_witness :
    (0 : Int) ≤ (SampleHolder.setAudioFile pool16 (fun i _ => (1000 + i).toNat) 3
        ⟨{ exampleHolder with startPos := 50, endPos := 30 }, exampleHeap, examplePool⟩ 7
        false false 0).holder.startPos ∧
    ((SampleHolder.setAudioFile pool16 (fun i _ => (1000 + i).toNat) 3
        ⟨{ exampleHolder with startPos := 50, endPos := 30 }, exampleHeap, examplePool⟩ 7
        false false 0).holder.startPos : Int)
      ≤ (SampleHolder.setAudioFile pool16 (fun i _ => (1000 + i).toNat) 3
        ⟨{ exampleHolder with startPos := 50, endPos := 30 }, exampleHeap, examplePool⟩ 7
        false false 0).holder.getEndPos
          ((SampleHolder.setAudioFile pool16 (fun i _ => (1000 + i).toNat) 3
            ⟨{ exampleHolder with startPos := 50, endPos := 30 }, exampleHeap, examplePool⟩ 7
            false false 0).heap.samples 7) false :=
  ⟨(setAudioFile_range_invariant pool16 (fun i _ => (1000 + i).toNat) 3
      ⟨{ exampleHolder with startPos := 50, endPos := 30 }, exampleHeap, examplePool⟩ 7
      false false 0 (by decide)).1,
   (setAudioFile_range_invariant pool16 (fun i _ => (1000 + i).toNat) 3
      ⟨{ exampleHolder with startPos := 50, endPos := 30 }, exampleHeap, examplePool⟩ 7
      false false 0 (by decide)).2.1⟩

/-- C12, as stated, fails: with a range of 50 to 30 frames (empty once clamped)
and a file of 1000 frames, `setAudioFile` without manual selection leaves the
range 0 to 30, not the full range 0 to 1000. -/
theorem setAudioFile_collapse_counterexample :
    ¬ specCollapsesToFullRange pool16 (fun i _ => (1000 + i).toNat) 3
        ⟨{ exampleHolder with startPos := 50, endPos := 30 }, exampleHeap, examplePool⟩ 7
        false 0 := by
  unfold specCollapsesToFullRange
  decide

/-- C12, amended: for `setAudioFile` without manual selection and a non-null
file of length `L`, `endPos` becomes `L` when it was 0 or 9999999 and is kept
otherwise, and `startPos` becomes 0 when the new `endPos` is at most
`min(startPos, L)` and `min(startPos, L)` otherwise. So an unset end gives the
full range when `startPos` was 0 or at least `L`, and a set end with an empty
clamped range gives `startPos = 0` with `endPos` kept. -/
theorem setAudioFile_not_manual_range (sm : SampleManager) (supply : Int → Nat → Ptr) (N : Nat)
    (w : HolderWorld) (newSample : Ptr) (reversed : Bool) (instr : Nat)
    (hnew : newSample ≠ NULL)
    (hL : (w.heap.samples newSample).lengthInSamples < 4294967296) :
    (SampleHolder.setAudioFile sm supply N w newSample reversed false instr).holder.endPos
      = (if w.holder.endPos = 0 ∨ w.holder.endPos = 9999999
          then (w.heap.samples newSample).lengthInSamples else w.holder.endPos) ∧
    (SampleHolder.setAudioFile sm supply N w newSample reversed false instr).holder.startPos
      = (if (SampleHolder.setAudioFile sm supply N w newSample reversed false
              instr).holder.endPos
            ≤ min w.holder.startPos (w.heap.samples newSample).lengthInSamples
          then 0 else min w.holder.startPos (w.heap.samples newSample).lengthInSamples) ∧
    ((w.holder.endPos = 0 ∨ w.holder.endPos = 9999999) →
      (w.holder.startPos = 0 ∨ (w.heap.samples newSample).lengthInSamples ≤ w.holder.startPos) →
      (SampleHolder.setAudioFile sm supply N w newSample reversed false
          instr).holder.startPos = 0 ∧
      (SampleHolder.setAudioFile sm supply N w newSample reversed false instr).holder.endPos
        = (w.heap.samples newSample).lengthInSamples) ∧
    (w.holder.endPos ≠ 0 → w.holder.endPos ≠ 9999999 →
      w.holder.endPos ≤ min w.holder.startPos (w.heap.samples newSample).lengthInSamples →
      (SampleHolder.setAudioFile sm supply N w newSample reversed false
          instr).holder.startPos = 0 ∧
      (SampleHolder.setAudioFile sm supply N w newSample reversed false instr).holder.endPos
        = w.holder.endPos) := by
  obtain ⟨h1, h2, _, _⟩ := setAudioFile_holder sm supply N w newSample reversed false instr hnew
  have hz := setZone_range (AudioFileHolder.setAudioFile w newSample).holder false
    ((w.heap.samples newSample).lengthInSamples % 4294967296)
  obtain ⟨b1, b2, _, _⟩ := base_setAudioFile_range w newSample
  rw [Nat.mod_eq_of_lt hL, b1, b2] at hz
  simp only [Bool.false_eq_true, if_false] at hz
  have eE : (SampleHolder.setAudioFile sm supply N w newSample reversed false
      instr).holder.endPos
      = (if w.holder.endPos = 0 ∨ w.holder.endPos = 9999999
          then (w.heap.samples newSample).lengthInSamples else w.holder.endPos) := by
    rw [h2, Nat.mod_eq_of_lt hL]; exact hz.2
  have eS : (SampleHolder.setAudioFile sm supply N w newSample reversed false
      instr).holder.startPos
      = (if (if w.holder.endPos = 0 ∨ w.holder.endPos = 9999999
              then (w.heap.samples newSample).lengthInSamples else w.holder.endPos)
            ≤ min w.holder.startPos (w.heap.samples newSample).lengthInSamples
          then 0 else min w.holder.startPos (w.heap.samples newSample).lengthInSamples) := by
    rw [h1, Nat.mod_eq_of_lt hL]; exact hz.1
  rw [eS, eE]
  refine ⟨rfl, rfl, ?_, ?_⟩
  · intro he hs
    rw [if_pos he]
    refine ⟨?_, rfl⟩
    split_ifs with hc
    · rfl
    · omega
  · intro he0 he9 hle
    have hne : ¬ (w.holder.endPos = 0 ∨ w.holder.endPos = 9999999) := by
      rintro (h | h)
      · exact he0 h
      · exact he9 h
    rw [if_neg hne, if_pos hle]
    exact ⟨rfl, rfl⟩

theorem setAudioFile_not_manual_range_witness :
    (SampleHolder.setAudioFile pool16 (fun i _ => (1000 + i).toNat) 3
        ⟨{ exampleHolder with startPos := 50, endPos := 30 }, exampleHeap, examplePool⟩ 7
        false false 0).holder.endPos
      = (if (30 : Nat) = 0 ∨ (30 : Nat) = 9999999 then 1000 else 30) :=
  (setAudioFile_not_manual_range pool16 (fun i _ => (1000 + i).toNat) 3
    ⟨{ exampleHolder with startPos := 50, endPos := 30 }, exampleHeap, examplePool⟩ 7
    false 0 (by decide) (by decide)).1

/-- C13: for `setAudioFile` with manual selection and a non-null file of length
`L` (held in a `uint32_t`), whatever the range was before, afterwards
`startPos = 0` and `endPos = L`. -/
theorem setAudioFile_manual_range (sm : SampleManager) (supply : Int → Nat → Ptr) (N : Nat)
    (w : HolderWorld) (newSample : Ptr) (reversed : Bool) (instr : Nat)
    (hnew : newSample ≠ NULL)
    (hL : (w.heap.samples newSample).lengthInSamples < 4294967296) :
    (SampleHolder.setAudioFile sm supply N w newSample reversed true instr).holder.startPos = 0 ∧
    (SampleHolder.setAudioFile sm supply N w newSample reversed true instr).holder.endPos
      = (w.heap.samples newSample).lengthInSamples := by
  obtain ⟨h1, h2, _, _⟩ := setAudioFile_holder sm supply N w newSample reversed true instr hnew
  have hz := setZone_range (AudioFileHolder.setAudioFile w newSample).holder true
    ((w.heap.samples newSample).lengthInSamples % 4294967296)
  rw [Nat.mod_eq_of_lt hL] at hz
  simp only [if_true] at hz
  rw [h1, h2, Nat.mod_eq_of_lt hL, hz.1, hz.2]
  exact ⟨rfl, rfl⟩

theorem setAudioFile_manual_range_witness :
    (SampleHolder.setAudioFile pool16 (fun i _ => (1000 + i).toNat) 3
        ⟨{ exampleHolder with startPos := 50, endPos := 30 }, exampleHeap, examplePool⟩ 7
        true true 0).holder.startPos = 0 ∧
    (SampleHolder.setAudioFile pool16 (fun i _ => (1000 + i).toNat) 3
        ⟨{ exampleHolder with startPos := 50, endPos := 30 }, exampleHeap, examplePool⟩ 7
        true true 0).holder.endPos = (exampleHeap.samples 7).lengthInSamples :=
  setAudioFile_manual_range pool16 (fun i _ => (1000 + i).toNat) 3
    ⟨{ exampleHolder with startPos := 50, endPos := 30 }, exampleHeap, examplePool⟩ 7
    true 0 (by decide) (by decide)

/-! ## The playback-start byte offset -/

/-- C14: for a holder with a bound file of length `L >= 1`, when every
intermediate value fits a signed 32-bit integer, `claimClusterReasons` hands
`claimClusterReasonsForMarker` the byte offset `audio_data_start + f * c * b`
and the play direction `+1` forwards and `-1` reversed, where `f` is
`max(0, startPos - 150)` forwards and `min(L - 1, getEndPos(false) - 1 + 150)`
reversed; in both directions `0 <= f`. -/
theorem claimClusterReasons_start_byte (sm : SampleManager) (sample : Sample)
    (supply : Int → Nat → Ptr) (N : Nat) (h : SampleHolder) (reversed : Bool) (instr : Nat)
    (p : Pool)
    (hL1 : 1 ≤ sample.lengthInSamples) (hL : sample.lengthInSamples < 2147483648)
    (hs : h.startPos < 2147483648)
    (he : h.getEndPos sample false - 1 + 150 < 2147483648)
    (hbps : (sample.numChannels : Int) * sample.byteDepth < 2147483648)
    (hbyte : (sample.audioDataStartPosBytes : Int)
      + specStartFrame h sample reversed * sample.numChannels * sample.byteDepth
        < 2147483648) :
    0 ≤ specStartFrame h sample reversed ∧
    h.startPlaybackAtSample sample reversed = specStartFrame h sample reversed ∧
    h.startPlaybackAtByte sample reversed
      = (sample.audioDataStartPosBytes : Int)
        + specStartFrame h sample reversed * sample.numChannels * sample.byteDepth ∧
    h.claimClusterReasons sm sample supply N reversed instr p
      = ({ h with loadedSampleChunksForStart :=
            (claimClusterReasonsForMarker sm sample supply N h.loadedSampleChunksForStart
              ((sample.audioDataStartPosBytes : Int)
                + specStartFrame h sample reversed * sample.numChannels
                  * sample.byteDepth).toNat
              (if reversed then -1 else 1) instr p).1 },
         (claimClusterReasonsForMarker sm sample supply N h.loadedSampleChunksForStart
            ((sample.audioDataStartPosBytes : Int)
              + specStartFrame h sample reversed * sample.numChannels
                * sample.byteDepth).toNat
            (if reversed then -1 else 1) instr p).2) := by
  have hge : 0 ≤ h.getEndPos sample false := by
    unfold SampleHolder.getEndPos
    simp only [Bool.false_eq_true, if_false]
    omega
  have hf0 : 0 ≤ specStartFrame h sample reversed := by
    unfold specStartFrame
    split_ifs <;> omega
  have hsample : h.startPlaybackAtSample sample reversed = specStartFrame h sample reversed := by
    unfold SampleHolder.startPlaybackAtSample specStartFrame MARKER_SAMPLES_BEFORE_TO_CLAIM
    cases reversed
    · simp only [Bool.not_false, if_true, Bool.false_eq_true, if_false]
      rw [wrapI32_of_fits _ (by omega) (by omega)]
      split_ifs <;> omega
    · simp only [Bool.not_true, Bool.false_eq_true, if_false, if_true]
      rw [wrapI32_of_fits _ (by omega) (by omega), wrapI32_of_fits _ (by omega) (by omega)]
      split_ifs <;> omega
  have hcb : (0 : Int) ≤ (sample.numChannels : Int) * sample.byteDepth :=
    mul_nonneg (Int.ofNat_nonneg _) (Int.ofNat_nonneg _)
  have hprod : 0 ≤ specStartFrame h sample reversed * sample.numChannels * sample.byteDepth := by
    rw [mul_assoc]
    exact mul_nonneg hf0 hcb
  have hbyteEq : h.startPlaybackAtByte sample reversed
      = (sample.audioDataStartPosBytes : Int)
        + specStartFrame h sample reversed * sample.numChannels * sample.byteDepth := by
    unfold SampleHolder.startPlaybackAtByte
    dsimp only
    rw [hsample, wrapI32_of_fits _ (by omega) hbps, ← mul_assoc]
    exact wrapI32_of_fits _ (by omega) hbyte
  refine ⟨hf0, hsample, hbyteEq, ?_⟩
  unfold SampleHolder.claimClusterReasons
  dsimp only
  rw [hbyteEq, wrapU32_of_fits _ (by omega) (by omega)]

theorem claimClusterReasons_start_byte_witness :
    cloneSource.startPlaybackAtByte (exampleSample 44 300000 RawDataFormat.native) true
      = ((exampleSample 44 300000 RawDataFormat.native).audioDataStartPosBytes : Int)
        + specStartFrame cloneSource (exampleSample 44 300000 RawDataFormat.native) true
          * (exampleSample 44 300000 RawDataFormat.native).numChannels
          * (exampleSample 44 300000 RawDataFormat.native).byteDepth ∧
    specStartFrame cloneSource (exampleSample 44 300000 RawDataFormat.native) true = 90149 :=
  ⟨(claimClusterReasons_start_byte pool32k (exampleSample 44 300000 RawDataFormat.native)
      (fun i _ => (1000 + i).toNat) 2 cloneSource true 0 examplePool
      (by decide) (by decide) (by decide) (by decide) (by decide) (by decide)).2.2.1,
   by decide⟩

/-! ## Cloning a holder -/

/-- C20 fails on the code: `beenClonedFrom` claims the window inside
`setAudioFile`, while the fresh holder still has its initial range, and copies
the range of `other` afterwards. With chunks of 32768 bytes, audio data from
byte 44 in frames of 3 bytes and `other` ranging over frames 50000 to 90000,
the clone ends with that range but its window starts at chunk 0, the chunk of
start frame 0, while the start frame derived from the cloned range, 49850, lies
in chunk 4. -/
theorem beenClonedFrom_window_ignores_cloned_range :
    (SampleHolder.beenClonedFrom pool32k (fun i _ => (1000 + i).toNat) 2 0 freshWorld
        cloneSource false).holder.startPos = 50000 ∧
    (SampleHolder.beenClonedFrom pool32k (fun i _ => (1000 + i).toNat) 2 0 freshWorld
        cloneSource false).holder.endPos = 90000 ∧
    (SampleHolder.beenClonedFrom pool32k (fun i _ => (1000 + i).toNat) 2 0 freshWorld
        cloneSource false).holder.loadedSampleChunksForStart = [1000, 1001] ∧
    (SampleHolder.beenClonedFrom pool32k (fun i _ => (1000 + i).toNat) 2 0 freshWorld
        cloneSource false).pool.requested = [0, 1] ∧
    (SampleHolder.beenClonedFrom pool32k (fun i _ => (1000 + i).toNat) 2 0 freshWorld
        cloneSource false).holder.startPlaybackAtByte (cloneHeap.samples 7) false
      / (pool32k.clusterSize : Int) = 4 ∧
    specStartFrame (SampleHolder.beenClonedFrom pool32k (fun i _ => (1000 + i).toNat) 2 0
        freshWorld cloneSource false).holder (cloneHeap.samples 7) false = 49850 := by
  decide

/-! ## Eviction queues -/

/-- C15: `getAppropriateQueue` returns a value and nothing else (it has no
state to change), and on a chunk of one of the four kinds whose owner pointers
match its kind it equals the reference classification: the perc-cache constants
by the reason count of the sample, the repitched-cache constants by the reason
count of the sample of the cache, and the sample-data constants by the reason
count of the sample, plus 1 exactly when the format is not native. -/
theorem getAppropriateQueue_eq_spec (q : StealableQueues) (h : Heap)
    (sampleOfCache : Ptr → Ptr) (c : Cluster) (ht : c.type ≠ ClusterType.other)
    (ho : c.OwnerMatchesType) :
    c.getAppropriateQueue q h sampleOfCache = specEvictionQueue q h sampleOfCache c := by
  obtain ⟨ho1, ho2⟩ := ho
  unfold Cluster.getAppropriateQueue specEvictionQueue
  cases hty : c.type with
  | sample =>
    obtain ⟨hc, hs⟩ := ho2 hty
    simp only [reduceCtorEq, or_self, if_false, hc, ne_eq, not_true_eq_false, hs,
      not_false_eq_true, if_true]
    split_ifs <;> simp
  | sampleCache =>
    have hc := ho1 hty
    simp only [reduceCtorEq, or_self, if_false, ne_eq, hc, not_false_eq_true, if_true]
  | percCacheForwards => simp
  | percCacheReversed => simp
  | other => exact absurd hty ht

theorem getAppropriateQueue_eq_spec_witness :
    (exampleCluster ClusterType.percCacheForwards 0 rampData).getAppropriateQueue
        ⟨6, 0, 9, 3, 10, 4⟩ exampleHeap (fun _ => 7)
      = specEvictionQueue ⟨6, 0, 9, 3, 10, 4⟩ exampleHeap (fun _ => 7)
          (exampleCluster ClusterType.percCacheForwards 0 rampData) :=
  getAppropriateQueue_eq_spec ⟨6, 0, 9, 3, 10, 4⟩ exampleHeap (fun _ => 7)
    (exampleCluster ClusterType.percCacheForwards 0 rampData) (by decide)
    ⟨by decide, by decide⟩

theorem getAppropriateQueue_cases (q : StealableQueues) (h : Heap)
    (sampleOfCache : Ptr → Ptr) (c : Cluster) (ht : c.type ≠ ClusterType.other)
    (ho : c.OwnerMatchesType) :
    c.getAppropriateQueue q h sampleOfCache = specEvictionQueue q h sampleOfCache c := by
  obtain ⟨ho1, ho2⟩ := ho
  unfold Cluster.getAppropriateQueue specEvictionQueue
  cases hty : c.type with
  | sample =>
    obtain ⟨hc, hs⟩ := ho2 hty
    simp only [reduceCtorEq, or_self, if_false, hc, ne_eq, not_true_eq_false, hs,
      not_false_eq_true, if_true]
    split_ifs <;> simp
  | sampleCache =>
    have hc := ho1 hty
    simp only [reduceCtorEq, or_self, if_false, ne_eq, hc, not_false_eq_true, if_true]
  | percCacheForwards => simp
  | percCacheReversed => simp
  | other => exact absurd hty ht

theorem specEvictionQueue_table (q : StealableQueues) (h : Heap) (sampleOfCache : Ptr → Ptr)
    (c : Cluster) (ht : c.type ≠ ClusterType.other) :
    ∃ (cls : Nat) (live nn : Bool), queueCombination h sampleOfCache c = (cls, live, nn) ∧
      ((cls = 0 ∧ nn = false ∧ specEvictionQueue q h sampleOfCache c
          = some (if live then q.currentSongSampleDataPercCache
                  else q.noSongSampleDataPercCache)) ∨
       (cls = 1 ∧ nn = false ∧ specEvictionQueue q h sampleOfCache c
          = some (if live then q.currentSongSampleDataRepitchedCache
                  else q.noSongSampleDataRepitchedCache)) ∨
       (cls = 2 ∧ specEvictionQueue q h sampleOfCache c
          = some ((if live then q.currentSongSampleData else q.noSongSampleData)
                  + (if nn then 1 else 0)))) := by
  unfold queueCombination specEvictionQueue
  cases hty : c.type with
  | sample =>
    refine ⟨2, _, _, rfl, Or.inr (Or.inr ⟨rfl, ?_⟩)⟩
    simp
  | sampleCache =>
    refine ⟨1, _, false, rfl, Or.inr (Or.inl ⟨rfl, rfl, ?_⟩)⟩
    simp
  | percCacheForwards =>
    refine ⟨0, _, false, rfl, Or.inl ⟨rfl, rfl, ?_⟩⟩
    simp
  | percCacheReversed =>
    refine ⟨0, _, false, rfl, Or.inl ⟨rfl, rfl, ?_⟩⟩
    simp
  | other => exact absurd hty ht

/-- C16: when the six queue constants are pairwise distinct and neither
raw-sample constant plus one is any of the six, two chunks (each of one of the
four kinds, with owner pointers matching its kind) that `getAppropriateQueue`
sends to the same queue are in the same combination of class, owner liveness
and, for raw-sample chunks, format nativeness. So the eight combinations get
eight distinct queues, and a raw-sample chunk in a non-native format never
shares a queue with a raw-sample chunk in the native format. -/
theorem getAppropriateQueue_separates (q : StealableQueues) (hq : q.Separated)
    (h1 h2 : Heap) (s1 s2 : Ptr → Ptr) (c1 c2 : Cluster)
    (ht1 : c1.type ≠ ClusterType.other) (ht2 : c2.type ≠ ClusterType.other)
    (ho1 : c1.OwnerMatchesType) (ho2 : c2.OwnerMatchesType)
    (heq : c1.getAppropriateQueue q h1 s1 = c2.getAppropriateQueue q h2 s2) :
    queueCombination h1 s1 c1 = queueCombination h2 s2 c2 := by
  obtain ⟨hnd, hplus⟩ := hq
  simp only [List.nodup_cons, List.mem_cons, List.mem_singleton, List.not_mem_nil,
    not_or, List.nodup_nil, or_false, and_true] at hnd
  simp only [List.mem_cons, List.mem_singleton, List.not_mem_nil, or_false,
    forall_eq_or_imp, forall_eq] at hplus
  obtain ⟨⟨a1, a2, a3, a4, a5⟩, ⟨b1, b2, b3, b4⟩, ⟨d1, d2, d3⟩, ⟨e1, e2⟩, f1, _⟩ := hnd
  obtain ⟨⟨p1, p2⟩, ⟨p3, p4⟩, ⟨p5, p6⟩, ⟨p7, p8⟩, ⟨p9, p10⟩, ⟨p11, p12⟩⟩ := hplus
  rw [getAppropriateQueue_cases q h1 s1 c1 ht1 ho1,
    getAppropriateQueue_cases q h2 s2 c2 ht2 ho2] at heq
  obtain ⟨cls1, l1, n1, k1, t1⟩ := specEvictionQueue_table q h1 s1 c1 ht1
  obtain ⟨cls2, l2, n2, k2, t2⟩ := specEvictionQueue_table q h2 s2 c2 ht2
  rw [k1, k2]
  rcases t1 with ⟨x1, y1, z1⟩ | ⟨x1, y1, z1⟩ | ⟨x1, z1⟩ <;>
    rcases t2 with ⟨x2, y2, z2⟩ | ⟨x2, y2, z2⟩ | ⟨x2, z2⟩ <;>
    rw [z1, z2, Option.some.injEq] at heq <;>
    subst_vars <;>
    cases l1 <;> cases l2 <;>
    (try cases n1) <;> (try cases n2) <;>
    simp only [Bool.false_eq_true, if_false, if_true, add_zero] at heq <;>
    first
    | rfl
    | exact absurd heq (by assumption)
    | exact absurd heq.symm (by assumption)
    | exact absurd (add_right_cancel heq) (by assumption)
    | exact absurd (add_right_cancel heq).symm (by assumption)

theorem getAppropriateQueue_separates_witness :
    queueCombination exampleHeap (fun _ => 7)
        (exampleCluster ClusterType.percCacheForwards 0 rampData)
      = queueCombination exampleHeap (fun _ => 7)
        (exampleCluster ClusterType.percCacheReversed 3 rampData) :=
  getAppropriateQueue_separates ⟨6, 0, 9, 3, 10, 4⟩
    (by unfold StealableQueues.Separated; decide)
    exampleHeap exampleHeap (fun _ => 7) (fun _ => 7)
    (exampleCluster ClusterType.percCacheForwards 0 rampData)
    (exampleCluster ClusterType.percCacheReversed 3 rampData)
    (by decide) (by decide) ⟨by decide, by decide⟩ ⟨by decide, by decide⟩ (by decide)

/-! ## Chunks that `convertDataIfNecessary` leaves alone -/

/-- C17: when the format of the owner is native, or its audio-data start offset
is zero, or the index of the chunk is below the index of the chunk containing
the audio-data start, `convertDataIfNecessary` leaves every byte of the buffer
unchanged, converts nothing and never calls `AudioEngine::routine()`. -/
theorem convert_leaves_chunk_alone (sm : SampleManager) (sample : Sample) (c : Cluster)
    (hsm : sm.WellFormed)
    (h : sample.rawDataFormat = RawDataFormat.native ∨ sample.audioDataStartPosBytes = 0 ∨
      (sample.audioDataStartPosBytes < 2147483648 ∧
        c.chunkIndex < sample.getFirstChunkIndexWithAudioData sm)) :
    (c.convertDataIfNecessary sm sample).cluster.data = c.data ∧
    (c.convertDataIfNecessary sm sample).routineCalls = 0 ∧
    (c.convertDataIfNecessary sm sample).converted = [] := by
  rcases h with h | h | ⟨hfit, hk⟩
  · rw [convert_of_native sm sample c h]
    exact ⟨rfl, rfl, rfl⟩
  · rw [convert_of_start_zero sm sample c h]
    exact ⟨rfl, rfl, rfl⟩
  · have hk2 : c.chunkIndex
        < wrapI32 sample.audioDataStartPosBytes >>> sm.clusterSizeMagnitude := by
      rw [startChunk_eq_div sm hsm _ hfit]
      unfold Sample.getFirstChunkIndexWithAudioData at hk
      rw [Int.shiftRight_eq_div_pow, ← hsm] at hk
      exact hk
    unfold Cluster.convertDataIfNecessary
    dsimp only
    split_ifs <;> exact ⟨rfl, rfl, rfl⟩

theorem convert_leaves_chunk_alone_witness :
    ((exampleCluster ClusterType.sample 0 rampData).convertDataIfNecessary pool16
        (exampleSample 40 30 RawDataFormat.otherNonNative)).cluster.data = rampData ∧
    ((exampleCluster ClusterType.sample 0 rampData).convertDataIfNecessary pool16
        (exampleSample 40 30 RawDataFormat.otherNonNative)).routineCalls = 0 ∧
    ((exampleCluster ClusterType.sample 0 rampData).convertDataIfNecessary pool16
        (exampleSample 40 30 RawDataFormat.otherNonNative)).converted = [] :=
  convert_leaves_chunk_alone pool16 (exampleSample 40 30 RawDataFormat.otherNonNative)
    (exampleCluster ClusterType.sample 0 rampData) (by decide)
    (Or.inr (Or.inr ⟨by decide, by decide⟩))

/-! ## Termination of the 24-bit conversion loop -/

theorem swapLoop_keeps_routineCalls (e : Int) (s : ConvState) :
    (swapLoop e s).routineCalls = s.routineCalls := by
  induction s using swapLoop.induct e with
  | case1 s h ih => rw [swapLoop_of_lt e s h, ih]
  | case2 s h => rw [swapLoop_of_not_lt e s h]

theorem swapLoop_converted_length (e : Int) (s : ConvState) :
    (swapLoop e s).converted.length = s.converted.length + ((e - s.pos + 2) / 3).toNat := by
  induction s using swapLoop.induct e with
  | case1 s h ih =>
    rw [swapLoop_of_lt e s h, ih]
    simp only [List.length_append, List.length_singleton]
    omega
  | case2 s h =>
    rw [swapLoop_of_not_lt e s h]
    omega

theorem swapLoop_outer_progress (endPos : Int) (s : ConvState) (h : s.pos < endPos) :
    s.pos < (swapLoop (quantumEnd endPos s.pos) s).pos := by
  have h1 := swapLoop_pos_ge (quantumEnd endPos s.pos) s
  have h2 : s.pos < quantumEnd endPos s.pos := by
    unfold quantumEnd
    split <;> omega
  omega

theorem swapQuanta_of_not_lt (endPos : Int) (s : ConvState) (h : ¬ s.pos < endPos) :
    swapQuanta endPos s = s := by
  have hq : quantumEnd endPos s.pos = endPos := by
    unfold quantumEnd; rw [if_pos (by omega)]
  rw [swapQuanta, hq, swapLoop_of_not_lt endPos s h, dif_pos (by omega)]

theorem swapQuanta_routineCalls_le (endPos : Int) (s : ConvState) :
    (swapQuanta endPos s).routineCalls
      ≤ s.routineCalls + ((endPos - s.pos + 1023) / 1024).toNat := by
  induction s using swapQuanta.induct endPos with
  | case1 s h =>
    rw [swapQuanta, dif_pos h, swapLoop_keeps_routineCalls]
    omega
  | case2 s h ih =>
    have hadv := swapLoop_quantum_advances endPos s h
    rw [swapQuanta, dif_neg h]
    refine le_trans ih ?_
    show (swapLoop (quantumEnd endPos s.pos) s).routineCalls + 1
        + ((endPos - (swapLoop (quantumEnd endPos s.pos) s).pos + 1023) / 1024).toNat
      ≤ s.routineCalls + ((endPos - s.pos + 1023) / 1024).toNat
    rw [swapLoop_keeps_routineCalls]
    omega

/-- C19, as stated, fails on an empty range: with chunks of 16 bytes and audio
data occupying bytes 2 to 16, the loop on chunk 1 starts at offset 1 with its
end at offset 1, and its single outer iteration does not move the position. -/
theorem conversionLoopBounds_counterexample :
    ¬ specConversionLoopBounds pool16
        (exampleSample 2 15 RawDataFormat.endiannessWrong24)
        (exampleCluster ClusterType.sample 1 rampData) := by
  intro h
  have h1 := h.1
  have hp : startPos24 pool16 (exampleSample 2 15 RawDataFormat.endiannessWrong24)
      (exampleCluster ClusterType.sample 1 rampData).chunkIndex
      (wrapI32 (exampleSample 2 15 RawDataFormat.endiannessWrong24).audioDataStartPosBytes)
      (wrapI32 (exampleSample 2 15 RawDataFormat.endiannessWrong24).audioDataStartPosBytes
        >>> pool16.clusterSizeMagnitude) = 1 := by decide
  have he : endPosOf pool16 (exampleSample 2 15 RawDataFormat.endiannessWrong24)
      (exampleCluster ClusterType.sample 1 rampData).chunkIndex 2 = 1 := by decide
  rw [hp, he] at h1
  have hq : quantumEnd 1 1 = 1 := by decide
  rw [hq, swapLoop_of_not_lt 1 _ (by decide)] at h1
  exact absurd h1 (by decide)

/-- C19, amended: the 24-bit conversion loop of `convertDataIfNecessary` always
terminates. Every outer iteration that starts before the end pointer moves the
position strictly forward; when the start pointer is at or past the end pointer
the loop leaves after one iteration without moving, swapping or calling the
callback. The number of swaps is `max(0, ceil((end - start) / 3))`, and the
servicing callback is called at most `max(0, ceil((end - start) / 1024))`
times. -/
theorem convert24_loop_bounds (sm : SampleManager) (sample : Sample) (c : Cluster)
    (h0 : sample.audioDataStartPosBytes ≠ 0)
    (hf : sample.rawDataFormat = RawDataFormat.endiannessWrong24)
    (hk : ¬ c.chunkIndex < wrapI32 sample.audioDataStartPosBytes >>> sm.clusterSizeMagnitude) :
    (∀ s : ConvState, s.pos < endPosOf sm sample c.chunkIndex 2 →
      s.pos < (swapLoop (quantumEnd (endPosOf sm sample c.chunkIndex 2) s.pos) s).pos) ∧
    (∀ s : ConvState, ¬ s.pos < endPosOf sm sample c.chunkIndex 2 →
      swapQuanta (endPosOf sm sample c.chunkIndex 2) s = s) ∧
    (c.convertDataIfNecessary sm sample).converted.length
      = ((endPosOf sm sample c.chunkIndex 2
          - startPos24 sm sample c.chunkIndex (wrapI32 sample.audioDataStartPosBytes)
              (wrapI32 sample.audioDataStartPosBytes >>> sm.clusterSizeMagnitude) + 2)
          / 3).toNat ∧
    (c.convertDataIfNecessary sm sample).routineCalls
      ≤ ((endPosOf sm sample c.chunkIndex 2
          - startPos24 sm sample c.chunkIndex (wrapI32 sample.audioDataStartPosBytes)
              (wrapI32 sample.audioDataStartPosBytes >>> sm.clusterSizeMagnitude) + 1023)
          / 1024).toNat := by
  refine ⟨fun s hs => swapLoop_outer_progress _ s hs,
    fun s hs => swapQuanta_of_not_lt _ s hs, ?_, ?_⟩
  · unfold Cluster.convertDataIfNecessary
    dsimp only
    rw [if_neg h0, if_pos (by simp [hf]), if_neg hk, if_pos hf]
    dsimp only
    rw [swapQuanta_converted, swapLoop_converted_length]
    simp
  · unfold Cluster.convertDataIfNecessary
    dsimp only
    rw [if_neg h0, if_pos (by simp [hf]), if_neg hk, if_pos hf]
    dsimp only
    have := swapQuanta_routineCalls_le (endPosOf sm sample c.chunkIndex 2)
      ⟨c.data, startPos24 sm sample c.chunkIndex (wrapI32 sample.audioDataStartPosBytes)
        (wrapI32 sample.audioDataStartPosBytes >>> sm.clusterSizeMagnitude), 0, []⟩
    simpa using this

theorem convert24_loop_bounds_witness :
    ((exampleCluster ClusterType.sample 0 rampData).convertDataIfNecessary pool32k
        (exampleSample 100 196608 RawDataFormat.endiannessWrong24)).converted.length = 10889 ∧
    ((exampleCluster ClusterType.sample 0 rampData).convertDataIfNecessary pool32k
        (exampleSample 100 196608 RawDataFormat.endiannessWrong24)).routineCalls ≤ 32 := by
  have h := convert24_loop_bounds pool32k
    (exampleSample 100 196608 RawDataFormat.endiannessWrong24)
    (exampleCluster ClusterType.sample 0 rampData) (by decide) rfl (by decide)
  have hp : startPos24 pool32k (exampleSample 100 196608 RawDataFormat.endiannessWrong24)
      (exampleCluster ClusterType.sample 0 rampData).chunkIndex
      (wrapI32 (exampleSample 100 196608 RawDataFormat.endiannessWrong24).audioDataStartPosBytes)
      (wrapI32 (exampleSample 100 196608 RawDataFormat.endiannessWrong24).audioDataStartPosBytes
        >>> pool32k.clusterSizeMagnitude) = 100 := by decide
  have he : endPosOf pool32k (exampleSample 100 196608 RawDataFormat.endiannessWrong24)
      (exampleCluster ClusterType.sample 0 rampData).chunkIndex 2 = 32766 := by decide
  rw [hp, he] at h
  exact ⟨h.2.2.1, h.2.2.2⟩

/-! ## The word conversion loop -/

theorem wordLoop_of_lt (conv : Nat × Nat × Nat × Nat → Nat × Nat × Nat × Nat) (dataAddr : Nat)
    (e : Int) (s : ConvState) (h : s.pos < e) :
    wordLoop conv dataAddr e s = wordLoop conv dataAddr e
      { data := convertWord conv s.data s.pos
        pos := s.pos + 4
        routineCalls := if atRoutineAddress dataAddr s.pos then s.routineCalls + 1
                        else s.routineCalls
        converted := s.converted ++ [s.pos] } := by
  rw [wordLoop, if_pos h]

theorem wordLoop_of_not_lt (conv : Nat × Nat × Nat × Nat → Nat × Nat × Nat × Nat)
    (dataAddr : Nat) (e : Int) (s : ConvState) (h : ¬ s.pos < e) :
    wordLoop conv dataAddr e s = s := by
  rw [wordLoop, if_neg h]

theorem convertWord_outside (conv : Nat × Nat × Nat × Nat → Nat × Nat × Nat × Nat)
    (data : Int → Nat) (p i : Int) (h : i < p ∨ p + 3 < i) :
    convertWord conv data p i = data i := by
  unfold convertWord
  rw [Function.update_noteq (by omega), Function.update_noteq (by omega),
    Function.update_noteq (by omega), Function.update_noteq (by omega)]

theorem convertWord_inside (conv : Nat × Nat × Nat × Nat → Nat × Nat × Nat × Nat)
    (data : Int → Nat) (p r : Int) (h0 : 0 ≤ r) (h3 : r ≤ 3) :
    convertWord conv data p (p + r)
      = wordByte (conv (data p, data (p + 1), data (p + 2), data (p + 3))) r := by
  unfold convertWord wordByte
  by_cases r0 : r = 0
  · subst r0
    rw [if_pos rfl, Function.update_noteq (by omega), Function.update_noteq (by omega),
      Function.update_noteq (by omega), add_zero, Function.update_same]
  · by_cases r1 : r = 1
    · subst r1
      rw [if_neg (by omega), if_pos rfl, Function.update_noteq (by omega),
        Function.update_noteq (by omega), Function.update_same]
    · by_cases r2 : r = 2
      · subst r2
        rw [if_neg (by omega), if_neg (by omega), if_pos rfl,
          Function.update_noteq (by omega), Function.update_same]
      · have r3 : r = 3 := by omega
        subst r3
        rw [if_neg (by omega), if_neg (by omega), if_neg (by omega), Function.update_same]

theorem wordLoop_data (conv : Nat × Nat × Nat × Nat → Nat × Nat × Nat × Nat) (dataAddr : Nat)
    (e : Int) (s : ConvState) (i : Int) :
    (wordLoop conv dataAddr e s).data i = convertedRange conv s.data s.pos e i := by
  induction s using wordLoop.induct conv dataAddr e with
  | case1 s h ih =>
    simp only [dite_eq_ite] at ih
    rw [wordLoop_of_lt conv dataAddr e s h, ih]
    unfold convertedRange
    by_cases hlo : i < s.pos
    · rw [if_neg (by omega), if_neg (by omega), convertWord_outside _ _ _ _ (Or.inl hlo)]
    · by_cases hin : i ≤ s.pos + 3
      · have hg : i - (i - s.pos) % 4 = s.pos := by omega
        have hr : (i - s.pos) % 4 = i - s.pos := by omega
        rw [if_neg (by omega), if_pos ⟨by omega, by omega⟩, hg, hr]
        have := convertWord_inside conv s.data s.pos (i - s.pos) (by omega) (by omega)
        rw [← this]
        congr 1
        omega
      · have hr : (i - (s.pos + 4)) % 4 = (i - s.pos) % 4 := by omega
        rw [hr]
        by_cases hc : s.pos ≤ i ∧ i - (i - s.pos) % 4 < e
        · rw [if_pos ⟨by omega, hc.2⟩, if_pos hc,
            convertWord_outside _ _ _ _ (Or.inr (by omega)),
            convertWord_outside _ _ _ _ (Or.inr (by omega)),
            convertWord_outside _ _ _ _ (Or.inr (by omega)),
            convertWord_outside _ _ _ _ (Or.inr (by omega))]
        · rw [if_neg (fun hh => hc ⟨by omega, hh.2⟩), if_neg hc,
            convertWord_outside _ _ _ _ (Or.inr (by omega))]
  | case2 s h =>
    rw [wordLoop_of_not_lt conv dataAddr e s h]
    unfold convertedRange
    rw [if_neg]
    omega

theorem wordLoop_converted_eq (conv : Nat × Nat × Nat × Nat → Nat × Nat × Nat × Nat)
    (dataAddr : Nat) (e : Int) (s : ConvState) :
    (wordLoop conv dataAddr e s).converted
      = s.converted ++ (List.range ((e - s.pos + 3) / 4).toNat).map
          (fun j : Nat => s.pos + 4 * (j : Int)) := by
  induction s using wordLoop.induct conv dataAddr e with
  | case1 s h ih =>
    simp only [dite_eq_ite] at ih
    rw [wordLoop_of_lt conv dataAddr e s h, ih]
    have hn : ((e - s.pos + 3) / 4).toNat = ((e - (s.pos + 4) + 3) / 4).toNat + 1 := by omega
    rw [hn, List.range_succ_eq_map, List.map_cons, List.map_map, List.append_assoc]
    congr 1
    simp only [List.singleton_append, Nat.cast_zero, mul_zero, add_zero, List.cons.injEq,
      true_and]
    apply List.map_congr_left
    intro j _
    simp only [Function.comp_apply, Nat.cast_succ]
    ring
  | case2 s h =>
    rw [wordLoop_of_not_lt conv dataAddr e s h]
    have hn : ((e - s.pos + 3) / 4).toNat = 0 := by omega
    rw [hn]
    simp

theorem wordLoop_converted_mem (conv : Nat × Nat × Nat × Nat → Nat × Nat × Nat × Nat)
    (dataAddr : Nat) (e : Int) (s : ConvState) (off : Int) :
    off ∈ (wordLoop conv dataAddr e s).converted ↔
      off ∈ s.converted ∨ (s.pos ≤ off ∧ off < e ∧ (off - s.pos) % 4 = 0) := by
  induction s using wordLoop.induct conv dataAddr e with
  | case1 s h ih =>
    simp only [dite_eq_ite] at ih
    rw [wordLoop_of_lt conv dataAddr e s h, ih]
    simp only [List.mem_append, List.mem_singleton]
    constructor
    · rintro ((h1 | h1) | h1)
      · exact Or.inl h1
      · right; omega
      · right; omega
    · rintro (h1 | h1)
      · exact Or.inl (Or.inl h1)
      · by_cases hp : off = s.pos
        · exact Or.inl (Or.inr hp)
        · right; omega
  | case2 s h =>
    rw [wordLoop_of_not_lt conv dataAddr e s h]
    constructor
    · exact Or.inl
    · rintro (h1 | h1)
      · exact h1
      · omega

theorem convertedRange_at_word (conv : Nat × Nat × Nat × Nat → Nat × Nat × Nat × Nat)
    (data : Int → Nat) (p e off : Int) (h : p ≤ off ∧ off < e ∧ (off - p) % 4 = 0) :
    (convertedRange conv data p e off, convertedRange conv data p e (off + 1),
      convertedRange conv data p e (off + 2), convertedRange conv data p e (off + 3))
      = conv (data off, data (off + 1), data (off + 2), data (off + 3)) := by
  have key : ∀ r : Int, 0 ≤ r → r ≤ 3 → convertedRange conv data p e (off + r)
      = wordByte (conv (data off, data (off + 1), data (off + 2), data (off + 3))) r := by
    intro r r0 r3
    unfold convertedRange
    have hr : (off + r - p) % 4 = r := by omega
    have hg : off + r - r = off := by omega
    rw [hr, hg, if_pos ⟨by omega, h.2.1⟩]
  have e0 := key 0 (by omega) (by omega)
  have e1 := key 1 (by omega) (by omega)
  have e2 := key 2 (by omega) (by omega)
  have e3 := key 3 (by omega) (by omega)
  rw [add_zero] at e0
  rw [e0, e1, e2, e3]
  rfl

theorem convertedRange_frame (conv : Nat × Nat × Nat × Nat → Nat × Nat × Nat × Nat)
    (data : Int → Nat) (p e i : Int)
    (h : ∀ off : Int, p ≤ off ∧ off < e ∧ (off - p) % 4 = 0 → i < off ∨ off + 3 < i) :
    convertedRange conv data p e i = data i := by
  unfold convertedRange
  by_cases hc : p ≤ i ∧ i - (i - p) % 4 < e
  · have := h (i - (i - p) % 4) ⟨by omega, hc.2, by omega⟩
    omega
  · rw [if_neg hc]

theorem convertWords_data (sm : SampleManager) (sample : Sample) (c : Cluster)
    (h0 : sample.audioDataStartPosBytes ≠ 0)
    (hf : sample.rawDataFormat = RawDataFormat.otherNonNative)
    (hk : ¬ c.chunkIndex < wrapI32 sample.audioDataStartPosBytes >>> sm.clusterSizeMagnitude) :
    (c.convertDataIfNecessary sm sample).cluster.data =
      convertedRange sample.convertOneData c.data
        (startPosWord sm c.chunkIndex (wrapI32 sample.audioDataStartPosBytes)
          (wrapI32 sample.audioDataStartPosBytes >>> sm.clusterSizeMagnitude))
        (endPosOf sm sample c.chunkIndex 3) := by
  unfold Cluster.convertDataIfNecessary
  dsimp only
  rw [if_neg h0, if_pos (by simp [hf]), if_neg hk, if_neg (by simp [hf])]
  funext i
  dsimp only
  rw [wordLoop_data]

theorem convertWords_converted (sm : SampleManager) (sample : Sample) (c : Cluster)
    (h0 : sample.audioDataStartPosBytes ≠ 0)
    (hf : sample.rawDataFormat = RawDataFormat.otherNonNative)
    (hk : ¬ c.chunkIndex < wrapI32 sample.audioDataStartPosBytes >>> sm.clusterSizeMagnitude) :
    (c.convertDataIfNecessary sm sample).converted =
      (List.range ((endPosOf sm sample c.chunkIndex 3
          - startPosWord sm c.chunkIndex (wrapI32 sample.audioDataStartPosBytes)
              (wrapI32 sample.audioDataStartPosBytes >>> sm.clusterSizeMagnitude) + 3)
          / 4).toNat).map
        (fun j : Nat => startPosWord sm c.chunkIndex (wrapI32 sample.audioDataStartPosBytes)
            (wrapI32 sample.audioDataStartPosBytes >>> sm.clusterSizeMagnitude)
          + 4 * (j : Int)) ∧
    ∀ off : Int, off ∈ (c.convertDataIfNecessary sm sample).converted ↔
      startPosWord sm c.chunkIndex (wrapI32 sample.audioDataStartPosBytes)
          (wrapI32 sample.audioDataStartPosBytes >>> sm.clusterSizeMagnitude) ≤ off ∧
        off < endPosOf sm sample c.chunkIndex 3 ∧
        (off - startPosWord sm c.chunkIndex (wrapI32 sample.audioDataStartPosBytes)
          (wrapI32 sample.audioDataStartPosBytes >>> sm.clusterSizeMagnitude)) % 4 = 0 := by
  unfold Cluster.convertDataIfNecessary
  dsimp only
  rw [if_neg h0, if_pos (by simp [hf]), if_neg hk, if_neg (by simp [hf])]
  dsimp only
  constructor
  · rw [wordLoop_converted_eq]
    simp
  · intro off
    rw [wordLoop_converted_mem]
    simp

theorem andMask_three (x : Int) (hx0 : 0 ≤ x) (hx : x < 4294967296) : andMask x 3 = x % 4 := by
  unfold andMask
  rw [wrapU32_of_fits x hx0 hx]
  have h := Nat.and_pow_two_sub_one_eq_mod x.toNat 2
  norm_num at h
  rw [h, Int.natCast_mod, Int.toNat_of_nonneg hx0]
  rfl

theorem clusterSize_mod_four (sm : SampleManager) (hsm : sm.WellFormed)
    (hC : 2 ≤ sm.clusterSizeMagnitude) (k : Int) : (k * (sm.clusterSize : Int)) % 4 = 0 := by
  have h4 : (4 : Int) ∣ (sm.clusterSize : Int) := by
    rw [hsm]
    have : (4 : Nat) ∣ 2 ^ sm.clusterSizeMagnitude := by
      have := Nat.pow_dvd_pow 2 hC
      simpa using this
    exact_mod_cast this
  exact Int.emod_eq_zero_of_dvd (Dvd.dvd.mul_left h4 k)

theorem startPosWord_spec (sm : SampleManager) (hsm : sm.WellFormed)
    (hC : 2 ≤ sm.clusterSizeMagnitude) (sample : Sample)
    (k : Int) (hfit : sample.audioDataStartPosBytes < 2147483648)
    (hk : (sample.audioDataStartPosBytes : Int) / (sm.clusterSize : Int) ≤ k) (off : Int) :
    (startPosWord sm k (wrapI32 sample.audioDataStartPosBytes)
          (wrapI32 sample.audioDataStartPosBytes >>> sm.clusterSizeMagnitude) ≤ off ∧
      (off - startPosWord sm k (wrapI32 sample.audioDataStartPosBytes)
          (wrapI32 sample.audioDataStartPosBytes >>> sm.clusterSizeMagnitude)) % 4 = 0) ↔
    (0 ≤ off ∧ (sample.audioDataStartPosBytes : Int) ≤ k * (sm.clusterSize : Int) + off ∧
      (k * (sm.clusterSize : Int) + off - sample.audioDataStartPosBytes) % 4 = 0) := by
  have hC0 := clusterSize_pos sm hsm
  have hdm := Int.emod_add_ediv (sample.audioDataStartPosBytes : Int) (sm.clusterSize : Int)
  have hm0 := Int.emod_nonneg (sample.audioDataStartPosBytes : Int) (ne_of_gt hC0)
  have hm1 := Int.emod_lt_of_pos (sample.audioDataStartPosBytes : Int) hC0
  have hcomm : (sm.clusterSize : Int)
      * ((sample.audioDataStartPosBytes : Int) / (sm.clusterSize : Int))
      = (sample.audioDataStartPosBytes : Int) / (sm.clusterSize : Int) * (sm.clusterSize : Int) :=
    mul_comm _ _
  have h4 := clusterSize_mod_four sm hsm hC k
  rw [startChunk_eq_div sm hsm _ hfit, wrapI32_of_fits _ (by omega) (by omega)]
  unfold startPosWord
  by_cases hk0 : k = (sample.audioDataStartPosBytes : Int) / (sm.clusterSize : Int)
  · rw [if_pos hk0, andMask_clusterSize sm hsm _ (by omega) (by omega)]
    subst hk0
    omega
  · rw [if_neg hk0, andMask_three _ (by omega) (by omega)]
    have hlt : (sample.audioDataStartPosBytes : Int) / (sm.clusterSize : Int) < k := by omega
    have hge := mul_clusterSize_ge (sm.clusterSize : Int) _ _ hC0 hlt
    omega

/-! ## Claims on the word conversion -/

/-- C18, as stated, fails: with chunks of 16 bytes and audio data occupying
bytes 4 to 9, the word at offset 8 of chunk 0 reaches past the end of the audio
data, yet it is converted. -/
theorem convertWords_trailing_word_counterexample :
    ¬ specConvertsWholeWords pool16 (exampleSample 4 6 RawDataFormat.otherNonNative)
        (exampleCluster ClusterType.sample 0 rampData) := by
  intro h
  have hmem : (8 : Int) ∈ ((exampleCluster ClusterType.sample 0 rampData).convertDataIfNecessary
      pool16 (exampleSample 4 6 RawDataFormat.otherNonNative)).converted := by
    rw [(convertWords_converted _ _ _ (by decide) rfl (by decide)).2]
    decide
  exact absurd ((h 8).mp hmem).2.2.2.2 (by decide)

/-- C18, amended: for a non-native format other than the 3-byte swapped one, a
chunk size that is a power of two and at least 4, and a chunk `k` from the
start chunk to the last chunk with audio data (the audio end not being a
multiple of the chunk size when `k` is that last chunk), `convertDataIfNecessary`
applies the conversion function of the owner once each, in increasing address
order, to the four-byte words of the audio stream that start inside chunk `k`
before the audio end and, when `k` is not the last chunk, lie entirely inside
chunk `k`; the last such word of the last chunk may reach past the audio end.
Each of these words is replaced by its image and no other byte changes. The
first word is at in-chunk offset `audio_data_start mod C` in the start chunk
and `audio_data_start mod 4` in a later chunk. -/
theorem convertWords_converts_exactly (sm : SampleManager) (sample : Sample) (c : Cluster)
    (hsm : sm.WellFormed) (hC : 2 ≤ sm.clusterSizeMagnitude)
    (hf : sample.rawDataFormat = RawDataFormat.otherNonNative)
    (h0 : sample.audioDataStartPosBytes ≠ 0)
    (hfit : sample.audioDataStartPosBytes < 2147483648)
    (hfit2 : sample.audioDataStartPosBytes + sample.audioDataLengthBytes < 4294967296)
    (hk1 : sample.getFirstChunkIndexWithAudioData sm ≤ c.chunkIndex)
    (hk2 : c.chunkIndex ≤ sample.getFirstChunkIndexWithNoAudioData sm - 1)
    (hend : c.chunkIndex = sample.getFirstChunkIndexWithNoAudioData sm - 1 →
      ((sample.audioDataStartPosBytes : Int) + sample.audioDataLengthBytes)
        % (sm.clusterSize : Int) ≠ 0) :
    (∃ n : Nat, (c.convertDataIfNecessary sm sample).converted =
      (List.range n).map (fun j : Nat =>
        (if c.chunkIndex = sample.getFirstChunkIndexWithAudioData sm
          then (sample.audioDataStartPosBytes : Int) % (sm.clusterSize : Int)
          else (sample.audioDataStartPosBytes : Int) % 4) + 4 * (j : Int))) ∧
    (∀ off : Int, off ∈ (c.convertDataIfNecessary sm sample).converted ↔
      0 ≤ off ∧
      (c.chunkIndex * (sm.clusterSize : Int) + off - sample.audioDataStartPosBytes) % 4 = 0 ∧
      (sample.audioDataStartPosBytes : Int) ≤ c.chunkIndex * (sm.clusterSize : Int) + off ∧
      c.chunkIndex * (sm.clusterSize : Int) + off
        < (sample.audioDataStartPosBytes : Int) + sample.audioDataLengthBytes ∧
      (c.chunkIndex < sample.getFirstChunkIndexWithNoAudioData sm - 1 →
        off + 3 < (sm.clusterSize : Int))) ∧
    (∀ off ∈ (c.convertDataIfNecessary sm sample).converted,
      ((c.convertDataIfNecessary sm sample).cluster.data off,
        (c.convertDataIfNecessary sm sample).cluster.data (off + 1),
        (c.convertDataIfNecessary sm sample).cluster.data (off + 2),
        (c.convertDataIfNecessary sm sample).cluster.data (off + 3))
      = sample.convertOneData (c.data off, c.data (off + 1), c.data (off + 2),
          c.data (off + 3))) ∧
    (∀ i : Int,
      (∀ off ∈ (c.convertDataIfNecessary sm sample).converted, i < off ∨ off + 3 < i) →
      (c.convertDataIfNecessary sm sample).cluster.data i = c.data i) := by
  have hC0 := clusterSize_pos sm hsm
  have hfirst : sample.getFirstChunkIndexWithAudioData sm
      = (sample.audioDataStartPosBytes : Int) / (sm.clusterSize : Int) := by
    unfold Sample.getFirstChunkIndexWithAudioData
    rw [Int.shiftRight_eq_div_pow, ← hsm]
  have hlastEq : sample.getFirstChunkIndexWithNoAudioData sm
      = ((sample.audioDataStartPosBytes : Int) + sample.audioDataLengthBytes - 1)
          / (sm.clusterSize : Int) + 1 := by
    unfold Sample.getFirstChunkIndexWithNoAudioData
    rw [Int.shiftRight_eq_div_pow, ← hsm]
  rw [hfirst] at hk1
  rw [hlastEq] at hk2 hend
  have hk : ¬ c.chunkIndex
      < wrapI32 sample.audioDataStartPosBytes >>> sm.clusterSizeMagnitude := by
    rw [startChunk_eq_div sm hsm _ hfit]; omega
  obtain ⟨hlist, hmem⟩ := convertWords_converted sm sample c h0 hf hk
  have hdata := convertWords_data sm sample c h0 hf hk
  have hE1 := Int.emod_add_ediv ((sample.audioDataStartPosBytes : Int)
    + sample.audioDataLengthBytes - 1) (sm.clusterSize : Int)
  have hE2 := Int.emod_nonneg ((sample.audioDataStartPosBytes : Int)
    + sample.audioDataLengthBytes - 1) (ne_of_gt hC0)
  have hE3 := Int.emod_lt_of_pos ((sample.audioDataStartPosBytes : Int)
    + sample.audioDataLengthBytes - 1) hC0
  have hM1 := Int.emod_add_ediv ((sample.audioDataStartPosBytes : Int)
    + sample.audioDataLengthBytes) (sm.clusterSize : Int)
  have hM2 := Int.emod_nonneg ((sample.audioDataStartPosBytes : Int)
    + sample.audioDataLengthBytes) (ne_of_gt hC0)
  have hM3 := Int.emod_lt_of_pos ((sample.audioDataStartPosBytes : Int)
    + sample.audioDataLengthBytes) hC0
  have hcomm : ∀ q : Int, (sm.clusterSize : Int) * q = q * (sm.clusterSize : Int) :=
    fun q => mul_comm _ _
  rw [hcomm] at hE1 hM1
  have hkC : c.chunkIndex * (sm.clusterSize : Int)
      ≤ (((sample.audioDataStartPosBytes : Int) + sample.audioDataLengthBytes - 1)
          / (sm.clusterSize : Int)) * (sm.clusterSize : Int) :=
    Int.mul_le_mul_of_nonneg_right (by omega) (le_of_lt hC0)
  have hspec := startPosWord_spec sm hsm hC sample c.chunkIndex hfit hk1
  have hendPos : endPosOf sm sample c.chunkIndex 3 =
      if c.chunkIndex = (((sample.audioDataStartPosBytes : Int)
          + sample.audioDataLengthBytes - 1) / (sm.clusterSize : Int)) + 1 - 1
      then ((sample.audioDataStartPosBytes : Int) + sample.audioDataLengthBytes)
        % (sm.clusterSize : Int)
      else (sm.clusterSize : Int) - 3 := by
    unfold endPosOf
    rw [hlastEq]
    dsimp only
    rw [wrapU32_of_fits _ (by omega) (by omega),
      andMask_clusterSize sm hsm _ (by omega) (by omega)]
  have hp0 : startPosWord sm c.chunkIndex (wrapI32 sample.audioDataStartPosBytes)
      (wrapI32 sample.audioDataStartPosBytes >>> sm.clusterSizeMagnitude)
      = (if c.chunkIndex = sample.getFirstChunkIndexWithAudioData sm
          then (sample.audioDataStartPosBytes : Int) % (sm.clusterSize : Int)
          else (sample.audioDataStartPosBytes : Int) % 4) := by
    rw [hfirst, startChunk_eq_div sm hsm _ hfit, wrapI32_of_fits _ (by omega) (by omega)]
    unfold startPosWord
    split_ifs
    · exact andMask_clusterSize sm hsm _ (by omega) (by omega)
    · exact andMask_three _ (by omega) (by omega)
  refine ⟨⟨_, by rw [← hp0]; exact hlist⟩, ?_, ?_, ?_⟩
  · intro off
    rw [hmem off, hendPos, hlastEq]
    by_cases hlast : c.chunkIndex = (((sample.audioDataStartPosBytes : Int)
        + sample.audioDataLengthBytes - 1) / (sm.clusterSize : Int)) + 1 - 1
    · rw [if_pos hlast]
      have hne := hend hlast
      have hq1 : ((sample.audioDataStartPosBytes : Int) + sample.audioDataLengthBytes)
          / (sm.clusterSize : Int) = c.chunkIndex := by
        rw [hlast]
        have h1 : ((sample.audioDataStartPosBytes : Int) + sample.audioDataLengthBytes)
            / (sm.clusterSize : Int)
            ≤ ((sample.audioDataStartPosBytes : Int) + sample.audioDataLengthBytes - 1)
              / (sm.clusterSize : Int) := by
          by_contra hcon
          have := mul_clusterSize_ge (sm.clusterSize : Int) _ _ hC0 (not_le.mp hcon)
          omega
        have h2 : ((sample.audioDataStartPosBytes : Int) + sample.audioDataLengthBytes - 1)
            / (sm.clusterSize : Int)
            ≤ ((sample.audioDataStartPosBytes : Int) + sample.audioDataLengthBytes)
              / (sm.clusterSize : Int) :=
          Int.ediv_le_ediv hC0 (by omega)
        omega
      rw [hq1] at hM1
      constructor
      · rintro ⟨a1, a2, a3⟩
        have := (hspec off).mp ⟨a1, a3⟩
        refine ⟨this.1, this.2.2, this.2.1, by omega, fun hlt => by omega⟩
      · rintro ⟨b1, b2, b3, b4, _⟩
        have := (hspec off).mpr ⟨b1, b3, b2⟩
        exact ⟨this.1, by omega, this.2⟩
    · rw [if_neg hlast]
      have hlt : c.chunkIndex < ((sample.audioDataStartPosBytes : Int)
          + sample.audioDataLengthBytes - 1) / (sm.clusterSize : Int) := by omega
      have hge := mul_clusterSize_ge (sm.clusterSize : Int) _ _ hC0 hlt
      constructor
      · rintro ⟨a1, a2, a3⟩
        have := (hspec off).mp ⟨a1, a3⟩
        refine ⟨this.1, this.2.2, this.2.1, by omega, fun _ => by omega⟩
      · rintro ⟨b1, b2, b3, b4, b5⟩
        have := (hspec off).mpr ⟨b1, b3, b2⟩
        exact ⟨this.1, by have := b5 (by omega); omega, this.2⟩
  · intro off hoff
    rw [hdata]
    exact convertedRange_at_word _ _ _ _ off ((hmem off).mp hoff)
  · intro i hi
    rw [hdata]
    exact convertedRange_frame _ _ _ _ i (fun off ho => hi off ((hmem off).mpr ho))

theorem convertWords_converts_exactly_witness :
    ((4 : Int) ∈ ((exampleCluster ClusterType.sample 0 rampData).convertDataIfNecessary pool16
        (exampleSample 4 40 RawDataFormat.otherNonNative)).converted) ∧
    ((12 : Int) ∈ ((exampleCluster ClusterType.sample 0 rampData).convertDataIfNecessary pool16
        (exampleSample 4 40 RawDataFormat.otherNonNative)).converted) ∧
    ((16 : Int) ∉ ((exampleCluster ClusterType.sample 0 rampData).convertDataIfNecessary pool16
        (exampleSample 4 40 RawDataFormat.otherNonNative)).converted) := by
  have h := (convertWords_converts_exactly pool16
    (exampleSample 4 40 RawDataFormat.otherNonNative)
    (exampleCluster ClusterType.sample 0 rampData) (by decide) (by decide) rfl (by decide)
    (by decide) (by decide) (by decide) (by decide) (by decide)).2.1
  exact ⟨(h 4).mpr (by decide), (h 12).mpr (by decide),
    fun hm => absurd ((h 16).mp hm).2.2.2.2 (by decide)⟩

end Deluge
